import Mathlib

/-!
Verification of the fivetran-operator reconciliation engine against its
natural-language specification.  The Go sources are shallowly embedded:
Go maps over strings become association lists with insert-or-replace
semantics, pointers become `Option`, fallible calls return `Except`, and
the external collaborators (Fivetran API, Vault) are modelled as explicit
environments passed to the embedded functions.
-/

namespace FivetranOperator

/-! ## Association lists with Go-map semantics -/

/-- Lookup in an association list (Go `m[k]`). -/
def mapGet? {α : Type} (l : List (String × α)) (k : String) : Option α :=
  match l with
  | [] => none
  | (k', v) :: rest => if k' = k then some v else mapGet? rest k

/-- Insert-or-replace in an association list (Go `m[k] = v`). -/
def mapSet {α : Type} (l : List (String × α)) (k : String) (v : α) : List (String × α) :=
  match l with
  | [] => [(k, v)]
  | (k', v') :: rest => if k' = k then (k, v) :: rest else (k', v') :: mapSet rest k v

theorem mapGet?_mapSet_self {α : Type} (l : List (String × α)) (k : String) (v : α) :
    mapGet? (mapSet l k v) k = some v := by
  induction l with
  | nil => simp [mapSet, mapGet?]
  | cons hd tl ih =>
    obtain ⟨k', v'⟩ := hd
    by_cases h : k' = k
    · simp [mapSet, mapGet?, h]
    · simp [mapSet, mapGet?, h, ih]

theorem mapGet?_mapSet_ne {α : Type} (l : List (String × α)) {k k' : String} (v : α)
    (h : k ≠ k') : mapGet? (mapSet l k v) k' = mapGet? l k' := by
  induction l with
  | nil => simp [mapSet, mapGet?, h]
  | cons hd tl ih =>
    obtain ⟨k'', v''⟩ := hd
    by_cases h2 : k'' = k
    · subst h2
      simp [mapSet, mapGet?, h]
    · simp [mapSet, mapGet?, h2, ih]

/-! ## `pkg/fivetran/errors.go`: APIError and retryability -/

/-- Embeds the Go struct `APIError` from `pkg/fivetran/errors.go`:
status code plus provider-reported code/message and the raw error string. -/
structure APIError where
  StatusCode : Int
  Code : String
  Message : String
  RawError : String
deriving DecidableEq, Repr

/-- Embeds `(*APIError).IsRetryable` from `pkg/fivetran/errors.go`:
a `switch` on the status code — 429 and 500/502/503/504 return true,
the default branch returns `StatusCode < 400 || StatusCode >= 500`. -/
def APIError.IsRetryable (e : APIError) : Bool :=
  if e.StatusCode = 429 then true
  else if e.StatusCode = 500 ∨ e.StatusCode = 502 ∨ e.StatusCode = 503 ∨ e.StatusCode = 504 then true
  else decide (e.StatusCode < 400) || decide (e.StatusCode ≥ 500)

/-- Convenience constructor: an API error with only a status code, as used
when the SDK error string carries no provider code/message. -/
def apiErrorOfStatus (s : Int) : APIError := ⟨s, "", "", ""⟩

/-! ## `pkg/fivetran/schema_builder.go`: SchemaBuilder -/

/-- Embeds the go-fivetran SDK column config built by `AddColumn`
(`ConnectionSchemaConfigColumn` with its fluent setters). -/
structure ConnectionSchemaConfigColumn where
  enabled : Option Bool
  hashed : Option Bool
  isPrimaryKey : Option Bool
deriving DecidableEq, Repr

/-- Embeds the go-fivetran SDK table config (`ConnectionSchemaConfigTable`):
optional enabled flag, optional sync mode, and a column map. -/
structure ConnectionSchemaConfigTable where
  enabled : Option Bool
  syncMode : Option String
  columns : List (String × ConnectionSchemaConfigColumn)
deriving DecidableEq, Repr

/-- A table config with no field set (Go `&connections.ConnectionSchemaConfigTable{}`). -/
def ConnectionSchemaConfigTable.empty : ConnectionSchemaConfigTable :=
  ⟨none, none, []⟩

/-- Embeds the go-fivetran SDK schema config (`ConnectionSchemaConfigSchema`). -/
structure ConnectionSchemaConfigSchema where
  enabled : Option Bool
  tables : List (String × ConnectionSchemaConfigTable)
deriving DecidableEq, Repr

/-- Embeds `SchemaBuilder` from `pkg/fivetran/schema_builder.go`:
a schema map, the change-handling policy string, and a sticky error. -/
structure SchemaBuilder where
  schemas : List (String × ConnectionSchemaConfigSchema)
  schemaChangeHandling : String
  err : Option String
deriving DecidableEq, Repr

/-- Embeds `NewSchemaBuilder`. -/
def NewSchemaBuilder : SchemaBuilder := ⟨[], "", none⟩

/-- Embeds `(*SchemaBuilder).WithSchemaChangeHandling`. -/
def SchemaBuilder.WithSchemaChangeHandling (b : SchemaBuilder) (handling : String) : SchemaBuilder :=
  if b.err.isSome then b else { b with schemaChangeHandling := handling }

/-- Embeds `(*SchemaBuilder).AddSchema`: rejects empty names, then stores a
schema config whose enabled flag is set. -/
def SchemaBuilder.AddSchema (b : SchemaBuilder) (name : String) (enabled : Bool) : SchemaBuilder :=
  if b.err.isSome then b
  else if name = "" then { b with err := some "schema name cannot be empty" }
  else { b with schemas := mapSet b.schemas name ⟨some enabled, []⟩ }

/-- Embeds `(*SchemaBuilder).AddTable`: requires the schema to exist, then
stores a table config carrying the enabled flag and (when non-empty) the
sync mode. -/
def SchemaBuilder.AddTable (b : SchemaBuilder) (schema table : String) (enabled : Bool)
    (syncMode : String) : SchemaBuilder :=
  if b.err.isSome then b
  else if schema = "" ∨ table = "" then
    { b with err := some "schema and table names cannot be empty" }
  else
    match mapGet? b.schemas schema with
    | none => { b with err := some ("schema " ++ schema ++ " not found") }
    | some s =>
      let tableConfig : ConnectionSchemaConfigTable :=
        { enabled := some enabled
          syncMode := if syncMode ≠ "" then some syncMode else none
          columns := [] }
      { b with schemas := mapSet b.schemas schema { s with tables := mapSet s.tables table tableConfig } }

/-- Embeds `(*SchemaBuilder).AddColumn`: requires the schema to exist, builds
the column config, then installs a **fresh** `ConnectionSchemaConfigTable{}`
for the table (replacing whatever table config was there) and attaches the
single new column to it — exactly as the Go code creates a new
`tableConfig`, calls `s.Table(table, tableConfig)` and then
`tableConfig.Column(column, columnConfig)`. -/
def SchemaBuilder.AddColumn (b : SchemaBuilder) (schema table column : String)
    (enabled hashed isPrimaryKey : Bool) : SchemaBuilder :=
  if b.err.isSome then b
  else if schema = "" ∨ table = "" ∨ column = "" then
    { b with err := some "schema, table, and column names cannot be empty" }
  else
    match mapGet? b.schemas schema with
    | none => { b with err := some ("schema " ++ schema ++ " not found") }
    | some s =>
      let columnConfig : ConnectionSchemaConfigColumn :=
        ⟨some enabled, some hashed, some isPrimaryKey⟩
      let tableConfig : ConnectionSchemaConfigTable :=
        { ConnectionSchemaConfigTable.empty with columns := [(column, columnConfig)] }
      { b with schemas := mapSet b.schemas schema { s with tables := mapSet s.tables table tableConfig } }

/-- Embeds `(*SchemaBuilder).Build`: the sticky error, or the schema map
and change-handling policy. -/
def SchemaBuilder.Build (b : SchemaBuilder) :
    Except String (List (String × ConnectionSchemaConfigSchema) × String) :=
  match b.err with
  | some e => Except.error e
  | none => Except.ok (b.schemas, b.schemaChangeHandling)

/-! ## CR schema types (`api/v1alpha1`) and the structural comparator
     (`pkg/fivetran/interfaces.go`) -/

/-- Embeds `ColumnObject` from `api/v1alpha1`. -/
structure ColumnObject where
  Enabled : Bool
  Hashed : Bool
  IsPrimaryKey : Bool
  MaskingAlgorithm : String
deriving DecidableEq, Repr

/-- Embeds `TableObject` from `api/v1alpha1`: enabled flag, optional column
map (nil map modelled as `none`), and sync-mode string (empty = unset). -/
structure TableObject where
  Enabled : Bool
  Columns : Option (List (String × ColumnObject))
  SyncMode : String
deriving DecidableEq, Repr

/-- Embeds `SchemaObject` from `api/v1alpha1`. `Tables = none` models a nil
Go map, which `CompareSchemaWithCR` treats differently from an empty one. -/
structure SchemaObject where
  Enabled : Bool
  Tables : Option (List (String × TableObject))
deriving DecidableEq, Repr

/-- Embeds `ConnectorSchemaConfig` from `api/v1alpha1`. -/
structure ConnectorSchemaConfig where
  Schemas : List (String × SchemaObject)
  SchemaChangeHandling : String
deriving DecidableEq, Repr

/-- Embeds the SDK response type `ConnectionSchemaConfigTableResponse`:
live enabled flag and sync mode are nullable. -/
structure ConnectionSchemaConfigTableResponse where
  Enabled : Option Bool
  SyncMode : Option String
deriving DecidableEq, Repr

/-- Embeds the SDK response type `ConnectionSchemaConfigSchemaResponse`. -/
structure ConnectionSchemaConfigSchemaResponse where
  Enabled : Option Bool
  Tables : List (String × ConnectionSchemaConfigTableResponse)
deriving DecidableEq, Repr

/-- Embeds the `Data` payload of `ConnectionSchemaDetailsResponse`. -/
structure ConnectionSchemaDetailsData where
  SchemaChangeHandling : String
  Schemas : List (String × ConnectionSchemaConfigSchemaResponse)
deriving DecidableEq, Repr

/-- Embeds the SDK response `ConnectionSchemaDetailsResponse`; `Code` is the
provider response code consulted by `reconcileSchema` for the
`NotFound_SchemaConfig` case. -/
structure ConnectionSchemaDetailsResponse where
  Code : String
  Data : ConnectionSchemaDetailsData
deriving DecidableEq, Repr

/-- Embeds `SchemaMismatch` from `pkg/fivetran/interfaces.go`. Go's
`map[string]*string` / `map[string][]string` become association lists. -/
structure SchemaMismatch where
  HasMismatch : Bool
  SchemaChangeHandling : Option String
  MissingSchemas : List String
  SchemaMismatches : List (String × String)
  TableMismatches : List (String × List String)
deriving DecidableEq, Repr

/-- Go's `fmt.Sprintf("%v", b)` on a bool. -/
def goBool (b : Bool) : String := if b then "true" else "false"

/-- The loop body of `compareTablesWithFivetran` for one CR table found in the
live data: the `tableIssues` list (enabled-state check when the live flag is
present, sync-mode check when the CR sync-mode is non-empty, with a distinct
message when the live sync-mode is nil). -/
def tableIssues (fivetranTableObj : ConnectionSchemaConfigTableResponse)
    (crTableObj : TableObject) : List String :=
  (match fivetranTableObj.Enabled with
   | some fe =>
     if fe ≠ crTableObj.Enabled then
       ["enabled state mismatch: expected " ++ goBool crTableObj.Enabled ++ ", got " ++ goBool fe]
     else []
   | none => []) ++
  (if crTableObj.SyncMode ≠ "" then
     match fivetranTableObj.SyncMode with
     | none => ["sync mode mismatch: expected " ++ crTableObj.SyncMode ++ ", got nil"]
     | some fs =>
       if fs ≠ crTableObj.SyncMode then
         ["sync mode mismatch: expected " ++ crTableObj.SyncMode ++ ", got " ++ fs]
       else []
   else [])

/-- Embeds `compareTablesWithFivetran` from `pkg/fivetran/interfaces.go`:
iterates the CR tables, reporting missing tables and per-table issues. -/
def compareTablesWithFivetran
    (fivetranTables : List (String × ConnectionSchemaConfigTableResponse))
    (crTables : List (String × TableObject)) : List String :=
  crTables.foldr
    (fun (kv : String × TableObject) acc =>
      let crTableName := kv.1
      let crTableObj := kv.2
      (match mapGet? fivetranTables crTableName with
       | none => ["table " ++ crTableName ++ " not found in source"]
       | some fivetranTableObj =>
         let issues := tableIssues fivetranTableObj crTableObj
         if issues ≠ [] then
           ["table " ++ crTableName ++ ": " ++ String.intercalate ", " issues]
         else []) ++ acc)
    []

/-- The per-schema step of `CompareSchemaWithCR`'s loop: threads the
accumulated `SchemaMismatch` through one CR schema entry. -/
def compareSchemaStep (fivetranSchemas : List (String × ConnectionSchemaConfigSchemaResponse))
    (mismatch : SchemaMismatch) (kv : String × SchemaObject) : SchemaMismatch :=
  let crSchemaName := kv.1
  let crSchemaObj := kv.2
  match mapGet? fivetranSchemas crSchemaName with
  | none =>
    { mismatch with
        HasMismatch := true
        MissingSchemas := mismatch.MissingSchemas ++ [crSchemaName] }
  | some fivetranSchemaObj =>
    let m1 :=
      match fivetranSchemaObj.Enabled with
      | some fe =>
        if fe ≠ crSchemaObj.Enabled then
          { mismatch with
              HasMismatch := true
              SchemaMismatches := mapSet mismatch.SchemaMismatches crSchemaName
                ("enabled state mismatch: expected " ++ goBool crSchemaObj.Enabled ++ ", got " ++ goBool fe) }
        else mismatch
      | none => mismatch
    match crSchemaObj.Tables with
    | none => m1
    | some crTables =>
      let tm := compareTablesWithFivetran fivetranSchemaObj.Tables crTables
      if tm.length > 0 then
        { m1 with
            HasMismatch := true
            TableMismatches := mapSet m1.TableMismatches crSchemaName tm }
      else m1

/-- Embeds `CompareSchemaWithCR` from `pkg/fivetran/interfaces.go`:
nil CR schema matches trivially; otherwise the change-handling policy is
compared when declared non-empty, and every declared schema is checked
against the live data. Returns `(matches, mismatch report)`. -/
def CompareSchemaWithCR (fivetranSchema : ConnectionSchemaDetailsResponse)
    (crSchema : Option ConnectorSchemaConfig) : Bool × SchemaMismatch :=
  let empty : SchemaMismatch := ⟨false, none, [], [], []⟩
  match crSchema with
  | none => (true, empty)
  | some cr =>
    let m0 :=
      if cr.SchemaChangeHandling ≠ "" ∧
         fivetranSchema.Data.SchemaChangeHandling ≠ cr.SchemaChangeHandling then
        { empty with
            HasMismatch := true
            SchemaChangeHandling := some ("expected " ++ cr.SchemaChangeHandling ++ ", got " ++
              fivetranSchema.Data.SchemaChangeHandling) }
      else empty
    let m := cr.Schemas.foldl (compareSchemaStep fivetranSchema.Data.Schemas) m0
    (!m.HasMismatch, m)

/-- Embeds `(*SchemaMismatch).String` from `pkg/fivetran/interfaces.go`. -/
def SchemaMismatch.render (sm : SchemaMismatch) : String :=
  if !sm.HasMismatch then "No schema mismatches found"
  else
    let parts : List String :=
      (match sm.SchemaChangeHandling with
       | some r => ["Schema Change Handling: " ++ r]
       | none => []) ++
      (if sm.MissingSchemas.length > 0 then
         ["Missing Schemas: " ++ String.intercalate ", " sm.MissingSchemas]
       else []) ++
      (sm.SchemaMismatches.map (fun kv => "Schema " ++ kv.1 ++ ": " ++ kv.2)) ++
      (sm.TableMismatches.map (fun kv => "Schema " ++ kv.1 ++ " tables: " ++ String.intercalate ", " kv.2))
    String.intercalate "; " parts

/-! ## JSON-like documents

Go's `json.Unmarshal` into `any` produces trees of `map[string]any`,
`[]any`, `string`, `float64`, `bool` and `nil`.  Mapping keys are modelled
as ordered association lists: the order records the textual order of the
raw JSON bytes (which `runtime.RawExtension` preserves verbatim), while Go
map iteration order is unspecified — theorems below depend only on facts
that are independent of iteration order. -/

mutual

/-- A JSON value. -/
inductive Json where
  | null
  | bool (b : Bool)
  | num (n : Int)
  | str (s : String)
  | arr (items : JsonList)
  | obj (fields : JsonFields)
deriving DecidableEq, Repr

/-- The elements of a JSON array. -/
inductive JsonList where
  | nil
  | cons (hd : Json) (tl : JsonList)
deriving DecidableEq, Repr

/-- The fields of a JSON object, in textual order. -/
inductive JsonFields where
  | nil
  | cons (k : String) (v : Json) (tl : JsonFields)
deriving DecidableEq, Repr

end

/-- Go map read `m[k]` on object fields (first binding wins, mirroring that
decoded Go maps hold one binding per key). -/
def jfGet? : JsonFields → String → Option Json
  | JsonFields.nil, _ => none
  | JsonFields.cons k' v rest, k => if k' = k then some v else jfGet? rest k

mutual

/-- Serialization of a document back to its textual bytes, mirroring the raw
bytes held by `runtime.RawExtension` (object fields in their textual order;
strings are assumed to need no escaping, which holds for every document
considered here). -/
def serializeJson : Json → String
  | Json.null => "null"
  | Json.bool b => if b then "true" else "false"
  | Json.num n => toString n
  | Json.str s => "\"" ++ s ++ "\""
  | Json.arr items => "[" ++ serializeJsonList items ++ "]"
  | Json.obj fields => "\x7b" ++ serializeJsonFields fields ++ "\x7d"

/-- Serializes the elements of a JSON array, comma-separated. -/
def serializeJsonList : JsonList → String
  | JsonList.nil => ""
  | JsonList.cons j JsonList.nil => serializeJson j
  | JsonList.cons j rest => serializeJson j ++ "," ++ serializeJsonList rest

/-- Serializes the fields of a JSON object, comma-separated. -/
def serializeJsonFields : JsonFields → String
  | JsonFields.nil => ""
  | JsonFields.cons k v JsonFields.nil => "\"" ++ k ++ "\":" ++ serializeJson v
  | JsonFields.cons k v rest => "\"" ++ k ++ "\":" ++ serializeJson v ++ "," ++ serializeJsonFields rest

end

/-- Kernel-reducible lexicographic order on character lists (used only to
canonicalize documents when stating "equal ignoring key order"). -/
def charsLe : List Char → List Char → Bool
  | [], _ => true
  | c :: cs, t =>
    match t with
    | [] => false
    | d :: ds => if c = d then charsLe cs ds else decide (c < d)

/-- Inserts a field into a key-sorted field list (used only to canonicalize
documents when stating "equal ignoring key order"). -/
def insertFieldSorted (k : String) (v : Json) : JsonFields → JsonFields
  | JsonFields.nil => JsonFields.cons k v JsonFields.nil
  | JsonFields.cons k' v' tl =>
    if charsLe k.data k'.data then JsonFields.cons k v (JsonFields.cons k' v' tl)
    else JsonFields.cons k' v' (insertFieldSorted k v tl)

mutual

/-- Canonicalizes a document by recursively sorting object keys.  This
definition follows the SPEC's notion of "structurally and value-equal
ignoring key order", for comparison against the implemented fingerprint. -/
def canonJson : Json → Json
  | Json.null => Json.null
  | Json.bool b => Json.bool b
  | Json.num n => Json.num n
  | Json.str s => Json.str s
  | Json.arr items => Json.arr (canonJsonList items)
  | Json.obj fields => Json.obj (canonJsonFields fields)

/-- Canonicalizes the elements of an array. -/
def canonJsonList : JsonList → JsonList
  | JsonList.nil => JsonList.nil
  | JsonList.cons j rest => JsonList.cons (canonJson j) (canonJsonList rest)

/-- Canonicalizes and key-sorts the fields of an object. -/
def canonJsonFields : JsonFields → JsonFields
  | JsonFields.nil => JsonFields.nil
  | JsonFields.cons k v rest => insertFieldSorted k (canonJson v) (canonJsonFields rest)

end

/-- SPEC-side relation: two documents are structurally and value-equal
ignoring mapping key order. -/
def eqIgnoringKeyOrder (d1 d2 : Json) : Bool := canonJson d1 = canonJson d2

/-! ## `pkg/fivetran/connector_service.go`: the Connector payload type and
     `UpdateConnection` -/

/-- Embeds the `Connector` struct from `pkg/fivetran/connector_service.go`
(the provider-shaped object built from the resolved spec).  Go pointers
become `Option`; `*map[string]any` documents become `Option JsonFields`. -/
structure Connector where
  Service : String
  Config : Option JsonFields
  Auth : Option JsonFields
  Paused : Option Bool
  GroupID : String
  SyncFrequency : Int
  DailySyncTime : String
  RunSetupTests : Option Bool
  ScheduleType : String
  PauseAfterTrial : Option Bool
  TrustCertificates : Option Bool
  TrustFingerprints : Option Bool
  DataDelaySensitivity : String
  DataDelayThreshold : Int
  NetworkingMethod : String
  ProxyAgentID : String
  PrivateLinkID : String
  HybridDeploymentAgentID : String
deriving DecidableEq, Repr

/-- The fields a connection-update request can set: `none` means the field
is left out of the request (the SDK setter was not called). -/
structure UpdateRequest where
  runSetupTests : Option Bool
  paused : Option Bool
  syncFrequency : Option Int
  dailySyncTime : Option String
  scheduleType : Option String
  pauseAfterTrial : Option Bool
  config : Option JsonFields
  auth : Option JsonFields
  networkingMethod : Option String
  proxyAgentID : Option String
  privateLinkID : Option String
  hybridDeploymentAgentID : Option String
  dataDelaySensitivity : Option String
  dataDelayThreshold : Option Int
deriving DecidableEq, Repr

/-- Embeds the request built by `UpdateConnection` in
`pkg/fivetran/connector_service.go`: a pure function of the resolved
connector alone (no remote state is consulted, no diff is computed).
`RunSetupTests(false)` is always set; pointer fields are set when non-nil
and string/int fields when non-zero, exactly mirroring the Go nil/zero
guards. -/
def UpdateConnection (c : Connector) : UpdateRequest where
  runSetupTests := some false
  paused := c.Paused
  syncFrequency := if c.SyncFrequency ≠ 0 then some c.SyncFrequency else none
  dailySyncTime := if c.DailySyncTime ≠ "" then some c.DailySyncTime else none
  scheduleType := if c.ScheduleType ≠ "" then some c.ScheduleType else none
  pauseAfterTrial := c.PauseAfterTrial
  config := c.Config
  auth := c.Auth
  networkingMethod := if c.NetworkingMethod ≠ "" then some c.NetworkingMethod else none
  proxyAgentID := if c.ProxyAgentID ≠ "" then some c.ProxyAgentID else none
  privateLinkID := if c.PrivateLinkID ≠ "" then some c.PrivateLinkID else none
  hybridDeploymentAgentID := if c.HybridDeploymentAgentID ≠ "" then some c.HybridDeploymentAgentID else none
  dataDelaySensitivity := if c.DataDelaySensitivity ≠ "" then some c.DataDelaySensitivity else none
  dataDelayThreshold := if c.DataDelayThreshold ≠ 0 then some c.DataDelayThreshold else none

/-- The remote (SaaS-side) settable state of a connection: one current value
per sendable field. -/
structure RemoteConnectorState where
  runSetupTests : Bool
  paused : Bool
  syncFrequency : Int
  dailySyncTime : String
  scheduleType : String
  pauseAfterTrial : Bool
  config : JsonFields
  auth : JsonFields
  networkingMethod : String
  proxyAgentID : String
  privateLinkID : String
  hybridDeploymentAgentID : String
  dataDelaySensitivity : String
  dataDelayThreshold : Int
deriving DecidableEq, Repr

/-- Remote semantics of an update request: every field present in the
request overwrites (sets, not patches) the remote value; absent fields are
untouched. -/
def applyUpdate (p : UpdateRequest) (s : RemoteConnectorState) : RemoteConnectorState where
  runSetupTests := p.runSetupTests.getD s.runSetupTests
  paused := p.paused.getD s.paused
  syncFrequency := p.syncFrequency.getD s.syncFrequency
  dailySyncTime := p.dailySyncTime.getD s.dailySyncTime
  scheduleType := p.scheduleType.getD s.scheduleType
  pauseAfterTrial := p.pauseAfterTrial.getD s.pauseAfterTrial
  config := p.config.getD s.config
  auth := p.auth.getD s.auth
  networkingMethod := p.networkingMethod.getD s.networkingMethod
  proxyAgentID := p.proxyAgentID.getD s.proxyAgentID
  privateLinkID := p.privateLinkID.getD s.privateLinkID
  hybridDeploymentAgentID := p.hybridDeploymentAgentID.getD s.hybridDeploymentAgentID
  dataDelaySensitivity := p.dataDelaySensitivity.getD s.dataDelaySensitivity
  dataDelayThreshold := p.dataDelayThreshold.getD s.dataDelayThreshold

/-! ## Status conditions (`status_mgmt.go`) and setup tests (`setup_tests.go`) -/

/-- Embeds `metav1.ConditionStatus` (True / False / Unknown). -/
inductive ConditionStatus where
  | isTrue
  | isFalse
  | unknown
deriving DecidableEq, Repr

/-- One status condition (type is the association-list key). -/
structure Condition where
  Status : ConditionStatus
  Reason : String
  Message : String
deriving DecidableEq, Repr

/-- Condition type constants from the controller package. -/
def conditionTypeConnectorReady : String := "ConnectorReady"

/-- Condition type `SetupTestReady`. -/
def conditionTypeSetupTestReady : String := "SetupTestReady"

/-- Condition type `SchemaReady`. -/
def conditionTypeSchemaReady : String := "SchemaReady"

/-- Reason constant `ReconciledSuccessfully`. -/
def ConnectorReasonSuccess : String := "ReconciledSuccessfully"

/-- Reason constant `ReconciledSuccessfullyWithWarnings`. -/
def SetupTestsReasonReconciliationSuccessWithWarnings : String := "ReconciledSuccessfullyWithWarnings"

/-- Reason constant `ReconciledSuccessfully` for setup tests. -/
def SetupTestsReasonReconciliationSuccess : String := "ReconciledSuccessfully"

/-- Reason constant `Skipped` for setup tests. -/
def SetupTestsReasonSkipped : String := "Skipped"

/-- Message constant `Connector is ready`. -/
def msgConnectorReady : String := "Connector is ready"

/-- Message constant for successful setup tests. -/
def msgSetupTestsCompletedSuccessfully : String := "Setup tests completed successfully"

/-- Message constant for skipped setup tests. -/
def msgSetupTestsSkipped : String := "Setup tests skipped"

/-- Embeds `setCondition` from `status_mgmt.go`: upsert by condition type
(replace in place, else append).  The status-subresource write is modelled
as always succeeding. -/
def setCondition (conds : List (String × Condition)) (conditionType : String)
    (status : ConditionStatus) (reason message : String) : List (String × Condition) :=
  mapSet conds conditionType ⟨status, reason, message⟩

/-- The error classes distinguished by `handleError` in `status_mgmt.go`:
the two sentinel errors, the connector-validation sentinel, typed vault and
API errors, and everything else. -/
inductive ReconcileError where
  | schemaMismatchAfterRetry (report : String)
  | setupTestsFailed (detail : String)
  | connectorValidationFailed (detail : String)
  | vaultError (retryable : Bool) (detail : String)
  | apiError (e : APIError)
  | other (detail : String)
deriving DecidableEq, Repr

/-- The message `err.Error()` carried into the failure condition. -/
def ReconcileError.message : ReconcileError → String
  | .schemaMismatchAfterRetry report =>
    "reconcileSchema compareSchemaWithCR retry: mismatches: " ++ report ++
      " - schema still mismatches CR after retry; possible schema config issue"
  | .setupTestsFailed d => "setup tests failed: " ++ d
  | .connectorValidationFailed d => "connector validation failed: " ++ d
  | .vaultError _ d => d
  | .apiError e => "fivetran api error (status " ++ toString e.StatusCode ++ "): " ++ e.Code ++ " - " ++ e.Message
  | .other d => d

/-- The outcome of `handleError`: an optional requeue delay (seconds), a
flag recording whether a non-nil error is returned to controller-runtime
(only the default branch does), and the updated condition list. -/
structure HandleErrorResult where
  requeueAfter : Option Nat
  returnsError : Bool
  conditions : List (String × Condition)
deriving DecidableEq, Repr

/-- Embeds `handleError` from `status_mgmt.go`: the schema-mismatch-after-
retry and connector-validation sentinels and non-retryable vault/API errors
set a failure condition with no requeue; a setup-test failure first forces
`ConnectorReady` back to success, then fails the given condition with no
requeue; retryable vault/API errors requeue after 5 minutes; anything else
sets the failure condition and returns the error itself. -/
def handleError (conds : List (String × Condition)) (conditionType reason : String)
    (err : ReconcileError) : HandleErrorResult :=
  match err with
  | .schemaMismatchAfterRetry _ =>
    ⟨none, false, setCondition conds conditionType ConditionStatus.isFalse reason err.message⟩
  | .setupTestsFailed _ =>
    let conds1 := setCondition conds conditionTypeConnectorReady ConditionStatus.isTrue
      ConnectorReasonSuccess msgConnectorReady
    ⟨none, false, setCondition conds1 conditionType ConditionStatus.isFalse reason err.message⟩
  | .connectorValidationFailed _ =>
    ⟨none, false, setCondition conds conditionType ConditionStatus.isFalse reason err.message⟩
  | .vaultError retryable _ =>
    if retryable then
      ⟨some 300, false, setCondition conds conditionType ConditionStatus.isFalse reason err.message⟩
    else
      ⟨none, false, setCondition conds conditionType ConditionStatus.isFalse reason err.message⟩
  | .apiError e =>
    if e.IsRetryable then
      ⟨some 300, false, setCondition conds conditionType ConditionStatus.isFalse reason err.message⟩
    else
      ⟨none, false, setCondition conds conditionType ConditionStatus.isFalse reason err.message⟩
  | .other _ =>
    ⟨none, true, setCondition conds conditionType ConditionStatus.isFalse reason err.message⟩

/-- Embeds `updateSetupTestsCondition` from `status_mgmt.go`: skipped tests
and successful/warning runs all set `SetupTestReady` to True, with the
reason and message chosen from the warnings. -/
def updateSetupTestsCondition (conds : List (String × Condition))
    (runSetupTests : Option Bool) (setupTestWarnings : List String) :
    List (String × Condition) :=
  let runTests := runSetupTests.isNone || runSetupTests = some true
  if !runTests then
    setCondition conds conditionTypeSetupTestReady ConditionStatus.isTrue
      SetupTestsReasonSkipped msgSetupTestsSkipped
  else if setupTestWarnings.length > 0 then
    setCondition conds conditionTypeSetupTestReady ConditionStatus.isTrue
      SetupTestsReasonReconciliationSuccessWithWarnings
      ("Setup tests completed with warnings: " ++ String.intercalate "; " setupTestWarnings)
  else
    setCondition conds conditionTypeSetupTestReady ConditionStatus.isTrue
      SetupTestsReasonReconciliationSuccess msgSetupTestsCompletedSuccessfully

/-- The classification loop of `reconcileSetupTests` in `setup_tests.go`:
given the returned test results as `(title, status, message)` triples,
collects warning messages and failure errors (everything that is neither
PASSED, SKIPPED nor WARNING fails). -/
def classifySetupTests (tests : List (String × String × String)) :
    List String × List String :=
  tests.foldr
    (fun t acc =>
      let title := t.1
      let status := t.2.1
      let message := t.2.2
      if status = "WARNING" then
        ((title ++ ": " ++ message) :: acc.1, acc.2)
      else if status ≠ "PASSED" ∧ status ≠ "SKIPPED" then
        (acc.1, ("reconcileSetupTests failed: " ++ title ++ " (status: " ++ status ++ ") - " ++ message) :: acc.2)
      else acc)
    ([], [])

/-! ## Schema drift reconciliation (`reconcileSchema`) -/

/-- The error constant `SchemaNotFoundError` (`NotFound_SchemaConfig`). -/
def SchemaNotFoundError : String := "NotFound_SchemaConfig"

/-- The provider environment seen by one `reconcileSchema` invocation: the
result of the n-th `GetSchemaDetails` call, and the error results of the
n-th `ReloadSchema` (given its exclusion mode) and `UpdateSchema` calls. -/
structure SchemaEnv where
  getDetails : Nat → ConnectionSchemaDetailsResponse × Option APIError
  reloadResult : Nat → String → Option APIError
  applyResult : Nat → Option APIError

/-- The provider operations `reconcileSchema` can perform, for the
instrumented call trace. -/
inductive SchemaOp where
  | getDetails
  | reload
  | apply
  | compare
deriving DecidableEq, Repr

/-- The outcome of one `reconcileSchema` invocation. -/
inductive SchemaOutcome where
  | success
  | failed (msg : String)
  | mismatchAfterRetry (report : String)
deriving DecidableEq, Repr

/-- The part of `reconcileSchema` after the live schema is known to exist
(apply → re-fetch → compare, and on mismatch exactly one reload → re-apply →
re-fetch → re-compare before the terminal mismatch error).  `nReload` is the
index of the next reload call; `excludeMode` is the reload exclusion mode
derived from the change-handling policy. -/
def reconcileSchemaAfterLoad (env : SchemaEnv) (cr : ConnectorSchemaConfig)
    (excludeMode : String) (nReload : Nat) (tr : List SchemaOp) :
    SchemaOutcome × List SchemaOp :=
  match env.applyResult 0 with
  | some _ => (SchemaOutcome.failed "reconcileSchema: applySchema", tr ++ [SchemaOp.apply])
  | none =>
    let tr1 := tr ++ [SchemaOp.apply]
    match (env.getDetails 1).2 with
    | some _ =>
      (SchemaOutcome.failed "reconcileSchema: failed to get schema details after apply",
        tr1 ++ [SchemaOp.getDetails])
    | none =>
      let tr2 := tr1 ++ [SchemaOp.getDetails, SchemaOp.compare]
      if (CompareSchemaWithCR (env.getDetails 1).1 (some cr)).1 then
        (SchemaOutcome.success, tr2)
      else
        match env.reloadResult nReload excludeMode with
        | some _ => (SchemaOutcome.failed "reconcileSchema reloadSchema retry", tr2 ++ [SchemaOp.reload])
        | none =>
          match env.applyResult 1 with
          | some _ =>
            (SchemaOutcome.failed "reconcileSchema applySchema retry",
              tr2 ++ [SchemaOp.reload, SchemaOp.apply])
          | none =>
            match (env.getDetails 2).2 with
            | some _ =>
              (SchemaOutcome.failed "reconcileSchema getSchemaDetails retry",
                tr2 ++ [SchemaOp.reload, SchemaOp.apply, SchemaOp.getDetails])
            | none =>
              let tr3 := tr2 ++ [SchemaOp.reload, SchemaOp.apply, SchemaOp.getDetails, SchemaOp.compare]
              if (CompareSchemaWithCR (env.getDetails 2).1 (some cr)).1 then
                (SchemaOutcome.success, tr3)
              else
                (SchemaOutcome.mismatchAfterRetry
                  (CompareSchemaWithCR (env.getDetails 2).1 (some cr)).2.render, tr3)

/-- Embeds `reconcileSchema` from the controller package: fetch the live
schema (reloading it into existence when the provider reports
`NotFound_SchemaConfig`), then apply, verify, and on mismatch run exactly
one recovery cycle before failing with `ErrSchemaMismatchAfterRetry`.  The
`excludeMode` for reloads is `EXCLUDE` for a `BLOCK_ALL` change-handling
policy and `PRESERVE` otherwise, as in `reloadSchema`. -/
def reconcileSchema (env : SchemaEnv) (cr : ConnectorSchemaConfig) :
    SchemaOutcome × List SchemaOp :=
  let excludeMode := if cr.SchemaChangeHandling = "BLOCK_ALL" then "EXCLUDE" else "PRESERVE"
  match (env.getDetails 0).2 with
  | some _ =>
    if (env.getDetails 0).1.Code ≠ SchemaNotFoundError then
      (SchemaOutcome.failed "reconcileSchema: failed to get schema details", [SchemaOp.getDetails])
    else
      match env.reloadResult 0 excludeMode with
      | some _ => (SchemaOutcome.failed "reconcileSchema: reloadSchema",
          [SchemaOp.getDetails, SchemaOp.reload])
      | none => reconcileSchemaAfterLoad env cr excludeMode 1
          [SchemaOp.getDetails, SchemaOp.reload]
  | none => reconcileSchemaAfterLoad env cr excludeMode 0 [SchemaOp.getDetails]

/-! ## Connector adoption (`handleExistingConnectorAdoption`) -/

/-- The remote connector data consulted during adoption (from the
`GetConnection` response): service, group and realized schema name. -/
structure RemoteConnectorData where
  Service : String
  GroupID : String
  Schema : String
deriving DecidableEq, Repr

/-- The part of the CR `Connector` spec consulted during adoption:
immutable identifiers and the (decoded) raw config document. -/
structure CRConnectorIdentity where
  Service : String
  GroupID : String
  Config : Option Json
deriving DecidableEq, Repr

/-- Go's two-valued string type assertion `v.(string)`. -/
def Json.asGoStr? : Json → Option String
  | Json.str s => some s
  | _ => none

/-- The `schema`/`table`/`table_group_name` part of the expected-schema
inference in `handleExistingConnectorAdoption`: base schema name, optionally
suffixed with the table name, overwritten by the table-group suffix when a
non-empty `table_group_name` is present.  `none` models the Go panic on the
unchecked `tablegroupname.(string)` assertion for a non-string value. -/
def expectedFromSchema (cfg : JsonFields) : Option String :=
  match (jfGet? cfg "schema").bind Json.asGoStr? with
  | some schema =>
    if schema = "" then some ""
    else
      let withTable :=
        match (jfGet? cfg "table").bind Json.asGoStr? with
        | some t => if t ≠ "" then schema ++ "." ++ t else schema
        | none => schema
      match jfGet? cfg "table_group_name" with
      | some tgn =>
        if (match tgn with | Json.str s => s != "" | _ => true) then
          match tgn with
          | Json.str s => some (schema ++ "." ++ s)
          | _ => none
        else some withTable
      | none => some withTable
  | none => some ""

/-- The full expected-schema inference: an explicit non-empty
`schema_prefix` wins, otherwise the `schema`-based inference; an empty
result means no inference was possible and the check is skipped. -/
def expectedSchemaName (cfg : JsonFields) : Option String :=
  match (jfGet? cfg "schema_prefix").bind Json.asGoStr? with
  | some p => if p = "" then expectedFromSchema cfg else some p
  | none => expectedFromSchema cfg

/-- Outcome of an adoption attempt: a validation/fetch failure, the Go
panic on a non-string `table_group_name`, or success carrying the connector
identity that `updateConnectorIDStatus` then writes into primary status. -/
inductive AdoptOutcome where
  | failed (msg : String)
  | panicked
  | adopted (connectorID : String)
deriving DecidableEq, Repr

/-- Embeds `handleExistingConnectorAdoption` from the controller package:
fetch the remote connector, validate `service`, then `group_id`, then (when
a config document is present) the inferred schema name, and only after all
validations pass set the connector ID in status. -/
def handleExistingConnectorAdoption (spec : CRConnectorIdentity) (adoptConnectorID : String)
    (remote : Except APIError RemoteConnectorData) : AdoptOutcome :=
  match remote with
  | Except.error _ =>
    AdoptOutcome.failed
      ("handleExistingConnectorAdoption: failed to get existing connector " ++ adoptConnectorID)
  | Except.ok data =>
    if spec.Service ≠ data.Service then
      AdoptOutcome.failed
        ("handleExistingConnectorAdoption: service mismatch: spec has '" ++ spec.Service ++
          "', existing connector has '" ++ data.Service ++ "'")
    else if spec.GroupID ≠ data.GroupID then
      AdoptOutcome.failed
        ("handleExistingConnectorAdoption: group_id mismatch: spec has '" ++ spec.GroupID ++
          "', existing connector has '" ++ data.GroupID ++ "'")
    else
      match spec.Config with
      | none => AdoptOutcome.adopted adoptConnectorID
      | some (Json.obj fields) =>
        match expectedSchemaName fields with
        | none => AdoptOutcome.panicked
        | some expected =>
          if expected ≠ "" ∧ expected ≠ data.Schema then
            AdoptOutcome.failed
              ("handleExistingConnectorAdoption: schema mismatch: expected '" ++ expected ++
                "', got '" ++ data.Schema ++ "'")
          else AdoptOutcome.adopted adoptConnectorID
      | some _ => AdoptOutcome.failed "handleExistingConnectorAdoption: failed to unmarshal config"

/-- The connector ID written into the resource's primary status by the
adoption path (`updateConnectorIDStatus` runs only on success). -/
def adoptionStatusWrite : AdoptOutcome → Option String
  | AdoptOutcome.adopted id => some id
  | _ => none

/-! ## Decidable substring containment (for "message contains …" properties) -/

/-- `leadsWith sub s` is true when `sub` is an initial segment of `s`. -/
def leadsWith : List Char → List Char → Bool
  | [], _ => true
  | c :: cs, t =>
    match t with
    | [] => false
    | d :: ds => (c = d) && leadsWith cs ds

/-- `occursIn sub s` is true when `sub` occurs contiguously inside `s`. -/
def occursIn (sub : List Char) : List Char → Bool
  | [] => leadsWith sub []
  | c :: rest => leadsWith sub (c :: rest) || occursIn sub rest

/-- Substring containment on strings: `strContainsStr s sub` holds when
`sub` occurs contiguously in `s`. -/
def strContainsStr (s sub : String) : Bool := occursIn sub.data s.data

/-! ## Secret resolution (`pkg/fivetran/vault_ops`) -/

/-- Go's `strings.HasPrefix(value, "vault:")`. -/
def hasVaultMark (value : String) : Bool := leadsWith "vault:".data value.data

/-- Go's `strings.SplitN(s, "#", 2)`: the text before the first `#` and the
rest after it, or `none` when the string holds no `#`. -/
def splitFirstHash : List Char → Option (List Char × List Char)
  | [] => none
  | c :: rest =>
    if c = '#' then some ([], rest)
    else
      match splitFirstHash rest with
      | some (l, r) => some (c :: l, r)
      | none => none

/-- One Vault KV read (`KVv2(...).Get` followed by `extractSecretData`):
a transport failure, a nil secret/data, a malformed KV-v2 payload, or the
flat key→value mapping at the path. -/
inductive VaultFetchResult where
  | apiFailure (msg : String)
  | dataNil
  | badFormat
  | ok (data : List (String × Json))
deriving DecidableEq, Repr

/-- The secret store: what one fetch of each path returns (fixed store
state during a resolution pass). -/
def VaultStore : Type := String → VaultFetchResult

/-- Embeds `VaultError` from `pkg/fivetran/vault_ops`: retryability flag,
the key path inside the document, the offending reference, and detail. -/
structure VaultError where
  Retryable : Bool
  KeyPath : String
  VaultRef : String
  Detail : String
deriving DecidableEq, Repr

/-- Embeds `NewInvalidReferenceError` (non-retryable). -/
def NewInvalidReferenceError (keyPath vaultRef details : String) : VaultError :=
  ⟨false, keyPath, vaultRef, "invalid vault reference format (expected format: vault:path#key): " ++ details⟩

/-- Embeds `NewKeyNotFoundError` (non-retryable, enumerates available keys). -/
def NewKeyNotFoundError (keyPath key path : String) (availableKeys : List String) : VaultError :=
  ⟨false, keyPath, "vault:" ++ path ++ "#" ++ key,
    "key not found in vault secret '" ++ key ++ "' at path '" ++ path ++ "' (available keys: [" ++
      String.intercalate " " availableKeys ++ "])"⟩

/-- Embeds `NewSecretNotFoundError` (non-retryable). -/
def NewSecretNotFoundError (keyPath vaultRef path : String) : VaultError :=
  ⟨false, keyPath, vaultRef, "secret not found at path '" ++ path ++ "'"⟩

/-- Embeds `NewSecretDataNilError` (non-retryable). -/
def NewSecretDataNilError (keyPath vaultRef : String) : VaultError :=
  ⟨false, keyPath, vaultRef, "secret data is nil"⟩

/-- Embeds `NewVaultAPIError` (retryable transport failure). -/
def NewVaultAPIError (keyPath vaultRef msg : String) : VaultError :=
  ⟨true, keyPath, vaultRef, "failed to read vault secret: " ++ msg⟩

/-- Embeds `parseVaultReference`: strip the leading `vault:`, split on the
first `#` (Go `strings.SplitN(ref, "#", 2)`), and require both segments
non-empty. -/
def parseVaultReference (value : String) : Except String (String × String) :=
  let refChars := if hasVaultMark value then value.data.drop 6 else value.data
  match splitFirstHash refChars with
  | none => Except.error ("invalid vault reference format (expected format: vault:path#key): '" ++ value ++ "'")
  | some (p, k) =>
    if p.isEmpty ∨ k.isEmpty then
      Except.error ("invalid vault reference format (expected format: vault:path#key): '" ++ value ++ "'")
    else Except.ok (String.mk p, String.mk k)

/-- Embeds `buildKeyPath`. -/
def buildKeyPath (parent child : String) : String :=
  if parent = "" then child else parent ++ "." ++ child

/-- The per-call resolution state: the path cache, plus the instrumented
list of store fetches actually performed (each `KVv2.Get` call, in order,
whether it succeeded or failed). -/
structure ResolveState where
  cache : List (String × List (String × Json))
  fetches : List String
deriving Repr

/-- Embeds `getPathData`: serve from the per-call cache when possible,
otherwise fetch from the store (recorded in `fetches`), caching only
successful results. -/
def getPathData (store : VaultStore) (st : ResolveState) (path keyPath vaultRef : String) :
    Except VaultError (List (String × Json)) × ResolveState :=
  match mapGet? st.cache path with
  | some data => (Except.ok data, st)
  | none =>
    match store path with
    | VaultFetchResult.apiFailure m =>
      (Except.error (NewVaultAPIError keyPath vaultRef m), { st with fetches := st.fetches ++ [path] })
    | VaultFetchResult.dataNil =>
      (Except.error (NewSecretDataNilError keyPath vaultRef), { st with fetches := st.fetches ++ [path] })
    | VaultFetchResult.badFormat =>
      (Except.error (NewSecretNotFoundError keyPath vaultRef path), { st with fetches := st.fetches ++ [path] })
    | VaultFetchResult.ok data =>
      (Except.ok data, ⟨mapSet st.cache path data, st.fetches ++ [path]⟩)

/-- Embeds `resolveString`: strings without the `vault:` prefix pass through
unchanged; otherwise parse the reference, fetch the path data (cached), and
look up the key, failing fast with the structured error at each stage. -/
def resolveString (store : VaultStore) (st : ResolveState) (value keyPath : String) :
    Except VaultError Json × ResolveState :=
  if !(hasVaultMark value) then (Except.ok (Json.str value), st)
  else
    match parseVaultReference value with
    | Except.error msg => (Except.error (NewInvalidReferenceError keyPath value msg), st)
    | Except.ok (path, key) =>
      match getPathData store st path keyPath value with
      | (Except.error e, st') => (Except.error e, st')
      | (Except.ok data, st') =>
        match mapGet? data key with
        | some v => (Except.ok v, st')
        | none => (Except.error (NewKeyNotFoundError keyPath key path (data.map Prod.fst)), st')

mutual

/-- Embeds `resolveValue`: dispatch on the node kind — maps and slices
recurse, strings go through `resolveString`, all other scalars pass
through. -/
def resolveValue (store : VaultStore) (st : ResolveState) (keyPath : String) :
    Json → Except VaultError Json × ResolveState
  | Json.obj fields =>
    match resolveFields store st keyPath fields with
    | (Except.ok fs, st') => (Except.ok (Json.obj fs), st')
    | (Except.error e, st') => (Except.error e, st')
  | Json.arr items =>
    match resolveItems store st keyPath 0 items with
    | (Except.ok xs, st') => (Except.ok (Json.arr xs), st')
    | (Except.error e, st') => (Except.error e, st')
  | Json.str s => resolveString store st s keyPath
  | Json.null => (Except.ok Json.null, st)
  | Json.bool b => (Except.ok (Json.bool b), st)
  | Json.num n => (Except.ok (Json.num n), st)

/-- Embeds `resolveMap`'s loop: resolve each value under its extended key
path, aborting on the first error (fail fast). -/
def resolveFields (store : VaultStore) (st : ResolveState) (keyPath : String) :
    JsonFields → Except VaultError JsonFields × ResolveState
  | JsonFields.nil => (Except.ok JsonFields.nil, st)
  | JsonFields.cons k v rest =>
    match resolveValue store st (buildKeyPath keyPath k) v with
    | (Except.error e, st') => (Except.error e, st')
    | (Except.ok v', st') =>
      match resolveFields store st' keyPath rest with
      | (Except.error e, st'') => (Except.error e, st'')
      | (Except.ok rest', st'') => (Except.ok (JsonFields.cons k v' rest'), st'')

/-- Embeds `resolveSlice`'s loop: resolve each element under its indexed
key path, aborting on the first error. -/
def resolveItems (store : VaultStore) (st : ResolveState) (keyPath : String) (i : Nat) :
    JsonList → Except VaultError JsonList × ResolveState
  | JsonList.nil => (Except.ok JsonList.nil, st)
  | JsonList.cons v rest =>
    match resolveValue store st (keyPath ++ "[" ++ toString i ++ "]") v with
    | (Except.error e, st') => (Except.error e, st')
    | (Except.ok v', st') =>
      match resolveItems store st' keyPath (i + 1) rest with
      | (Except.error e, st'') => (Except.error e, st'')
      | (Except.ok rest', st'') => (Except.ok (JsonList.cons v' rest'), st'')

end

/-- A full resolution run on a document with an empty per-call cache,
exposing the final instrumented state. -/
def ResolveSecretsRun (store : VaultStore) (doc : Json) :
    Except VaultError Json × ResolveState :=
  resolveValue store ⟨[], []⟩ "" doc

/-- Embeds `ResolveSecrets`: a nil raw document is a no-op; otherwise the
document is decoded, resolved with a fresh per-call cache, and written back
only on success — on error the caller's document is unchanged. -/
def ResolveSecrets (store : VaultStore) (rawConfig : Option Json) :
    Option Json × Option VaultError :=
  match rawConfig with
  | none => (none, none)
  | some doc =>
    match (ResolveSecretsRun store doc).1 with
    | Except.ok resolved => (some resolved, none)
    | Except.error e => (some doc, some e)

/-- Whether a single string value is an unresolvable reference against the
given store: a `vault:`-prefixed string whose grammar is invalid, whose
path fetch fails, or whose key is absent from the fetched data. -/
def refFails (store : VaultStore) (value : String) : Bool :=
  if hasVaultMark value then
    match parseVaultReference value with
    | Except.error _ => true
    | Except.ok (path, key) =>
      match store path with
      | VaultFetchResult.ok data => (mapGet? data key).isNone
      | _ => true
  else false

/-- The store path of a well-formed reference string, if any. -/
def refPath? (value : String) : Option String :=
  if hasVaultMark value then
    match parseVaultReference value with
    | Except.ok (path, _) => some path
    | Except.error _ => none
  else none

mutual

/-- Whether any string node of the document is an unresolvable reference. -/
def jsonHasFailingRef (store : VaultStore) : Json → Bool
  | Json.str s => refFails store s
  | Json.obj fields => fieldsHaveFailingRef store fields
  | Json.arr items => itemsHaveFailingRef store items
  | _ => false

/-- `jsonHasFailingRef` over object fields. -/
def fieldsHaveFailingRef (store : VaultStore) : JsonFields → Bool
  | JsonFields.nil => false
  | JsonFields.cons _ v rest => jsonHasFailingRef store v || fieldsHaveFailingRef store rest

/-- `jsonHasFailingRef` over array items. -/
def itemsHaveFailingRef (store : VaultStore) : JsonList → Bool
  | JsonList.nil => false
  | JsonList.cons v rest => jsonHasFailingRef store v || itemsHaveFailingRef store rest

end

mutual

/-- The store paths of all well-formed references in a document. -/
def jsonRefPaths : Json → List String
  | Json.str s => (refPath? s).toList
  | Json.obj fields => fieldsRefPaths fields
  | Json.arr items => itemsRefPaths items
  | _ => []

/-- `jsonRefPaths` over object fields. -/
def fieldsRefPaths : JsonFields → List String
  | JsonFields.nil => []
  | JsonFields.cons _ v rest => jsonRefPaths v ++ fieldsRefPaths rest

/-- `jsonRefPaths` over array items. -/
def itemsRefPaths : JsonList → List String
  | JsonList.nil => []
  | JsonList.cons v rest => jsonRefPaths v ++ itemsRefPaths rest

end

/-! ## Resolver invariants (for the caching and fail-fast claims) -/

/-- The per-call cache is consistent with the store: every cached mapping
was fetched successfully from the store. -/
def CacheConsistent (store : VaultStore) (cache : List (String × List (String × Json))) : Prop :=
  ∀ p data, mapGet? cache p = some data → store p = VaultFetchResult.ok data

/-- Run invariant of the resolver state: the cache is store-consistent, no
path was fetched twice, and the fetched paths are exactly the cached ones. -/
def StateInv (store : VaultStore) (st : ResolveState) : Prop :=
  CacheConsistent store st.cache ∧ st.fetches.Nodup ∧
    ∀ p, p ∈ st.fetches ↔ (mapGet? st.cache p).isSome

/-- Appending a path not yet fetched keeps the fetch list duplicate-free. -/
theorem nodup_append_single {l : List String} {a : String} (h : l.Nodup) (ha : a ∉ l) :
    (l ++ [a]).Nodup := by
  simp [List.nodup_append, h, ha]

/-- `getPathData` preserves the run invariant: its fetch list stays
duplicate-free, and on success the returned data is exactly what the store
holds at the path, the path ends up cached, the cache only grows, and the
full invariant is maintained. -/
theorem getPathData_inv (store : VaultStore) (st : ResolveState) (path keyPath vaultRef : String)
    (h : StateInv store st) :
    (getPathData store st path keyPath vaultRef).2.fetches.Nodup ∧
    (∀ data st', getPathData store st path keyPath vaultRef = (Except.ok data, st') →
      StateInv store st' ∧ store path = VaultFetchResult.ok data ∧
      (mapGet? st'.cache path).isSome ∧
      (∀ q, (mapGet? st.cache q).isSome → (mapGet? st'.cache q).isSome)) := by
  obtain ⟨hcons, hnd, hiff⟩ := h
  have hnotmem : mapGet? st.cache path = none → path ∉ st.fetches := by
    intro hnone hmem
    have := (hiff path).mp hmem
    rw [hnone] at this
    simp at this
  cases hc : mapGet? st.cache path with
  | some data0 =>
    have heq : getPathData store st path keyPath vaultRef = (Except.ok data0, st) := by
      simp [getPathData, hc]
    rw [heq]
    refine ⟨hnd, ?_⟩
    intro data st' hpair
    injection hpair with h1 h2
    injection h1 with h1
    subst h2
    rw [← h1]
    exact ⟨⟨hcons, hnd, hiff⟩, hcons _ _ hc, by simp [hc], fun q hq => hq⟩
  | none =>
    have hpnot := hnotmem hc
    cases hs : store path with
    | apiFailure m =>
      have heq : getPathData store st path keyPath vaultRef =
          (Except.error (NewVaultAPIError keyPath vaultRef m),
            { st with fetches := st.fetches ++ [path] }) := by
        simp [getPathData, hc, hs]
      rw [heq]
      exact ⟨nodup_append_single hnd hpnot,
        by intro data st' hpair; injection hpair with h1 _; exact absurd h1 (by simp)⟩
    | dataNil =>
      have heq : getPathData store st path keyPath vaultRef =
          (Except.error (NewSecretDataNilError keyPath vaultRef),
            { st with fetches := st.fetches ++ [path] }) := by
        simp [getPathData, hc, hs]
      rw [heq]
      exact ⟨nodup_append_single hnd hpnot,
        by intro data st' hpair; injection hpair with h1 _; exact absurd h1 (by simp)⟩
    | badFormat =>
      have heq : getPathData store st path keyPath vaultRef =
          (Except.error (NewSecretNotFoundError keyPath vaultRef path),
            { st with fetches := st.fetches ++ [path] }) := by
        simp [getPathData, hc, hs]
      rw [heq]
      exact ⟨nodup_append_single hnd hpnot,
        by intro data st' hpair; injection hpair with h1 _; exact absurd h1 (by simp)⟩
    | ok data1 =>
      have heq : getPathData store st path keyPath vaultRef =
          (Except.ok data1, ⟨mapSet st.cache path data1, st.fetches ++ [path]⟩) := by
        simp [getPathData, hc, hs]
      rw [heq]
      refine ⟨nodup_append_single hnd hpnot, ?_⟩
      intro data st' hpair
      injection hpair with h1 h2
      injection h1 with h1
      subst h2
      rw [← h1]
      refine ⟨⟨?_, nodup_append_single hnd hpnot, ?_⟩, rfl, by simp [mapGet?_mapSet_self], ?_⟩
      · intro q dq hq
        by_cases hqp : q = path
        · subst hqp
          rw [mapGet?_mapSet_self] at hq
          injection hq with hq
          rw [hq] at hs
          exact hs
        · rw [mapGet?_mapSet_ne _ _ (fun hh => hqp hh.symm)] at hq
          exact hcons _ _ hq
      · intro q
        by_cases hqp : q = path
        · subst hqp
          simp [mapGet?_mapSet_self]
        · rw [mapGet?_mapSet_ne _ _ (fun hh => hqp hh.symm)]
          simp only [List.mem_append, List.mem_singleton]
          constructor
          · intro hmem
            rcases hmem with hmem | hmem
            · exact (hiff q).mp hmem
            · exact absurd hmem hqp
          · intro hsome
            exact Or.inl ((hiff q).mpr hsome)
      · intro q hq
        by_cases hqp : q = path
        · subst hqp
          simp [mapGet?_mapSet_self]
        · rw [mapGet?_mapSet_ne _ _ (fun hh => hqp hh.symm)]
          exact hq

/-- `resolveString` preserves the run invariant; on success every parseable
reference path in the string ends up cached and the cache only grows. -/
theorem resolveString_inv (store : VaultStore) (st : ResolveState) (value keyPath : String)
    (h : StateInv store st) :
    (resolveString store st value keyPath).2.fetches.Nodup ∧
    (∀ v st', resolveString store st value keyPath = (Except.ok v, st') →
      StateInv store st' ∧
      (∀ q, (mapGet? st.cache q).isSome → (mapGet? st'.cache q).isSome) ∧
      (∀ p, refPath? value = some p → (mapGet? st'.cache p).isSome)) := by
  by_cases hv : hasVaultMark value
  · cases hp : parseVaultReference value with
    | error msg =>
      have heq : resolveString store st value keyPath =
          (Except.error (NewInvalidReferenceError keyPath value msg), st) := by
        simp [resolveString, hv, hp]
      rw [heq]
      exact ⟨h.2.1, by intro v st' hpair; injection hpair with h1 _; exact absurd h1 (by simp)⟩
    | ok pk =>
      obtain ⟨path, key⟩ := pk
      have hg := getPathData_inv store st path keyPath value h
      rcases hgd : getPathData store st path keyPath value with ⟨r, st1⟩
      rw [hgd] at hg
      cases r with
      | error e =>
        have heq : resolveString store st value keyPath = (Except.error e, st1) := by
          simp [resolveString, hv, hp, hgd]
        rw [heq]
        exact ⟨hg.1, by intro v st' hpair; injection hpair with h1 _; exact absurd h1 (by simp)⟩
      | ok data =>
        have hspec := hg.2 data st1 rfl
        cases hk : mapGet? data key with
        | some v0 =>
          have heq : resolveString store st value keyPath = (Except.ok v0, st1) := by
            simp [resolveString, hv, hp, hgd, hk]
          rw [heq]
          refine ⟨hg.1, ?_⟩
          intro v st' hpair
          injection hpair with h1 h2
          subst h2
          refine ⟨hspec.1, hspec.2.2.2, ?_⟩
          intro p hrp
          unfold refPath? at hrp
          rw [if_pos hv, hp] at hrp
          injection hrp with hrp
          rw [← hrp]
          exact hspec.2.2.1
        | none =>
          have heq : resolveString store st value keyPath =
              (Except.error (NewKeyNotFoundError keyPath key path (data.map Prod.fst)), st1) := by
            simp [resolveString, hv, hp, hgd, hk]
          rw [heq]
          exact ⟨hg.1, by intro v st' hpair; injection hpair with h1 _; exact absurd h1 (by simp)⟩
  · have heq : resolveString store st value keyPath = (Except.ok (Json.str value), st) := by
      simp [resolveString, hv]
    rw [heq]
    refine ⟨h.2.1, ?_⟩
    intro v st' hpair
    injection hpair with h1 h2
    subst h2
    refine ⟨h, fun q hq => hq, ?_⟩
    intro p hrp
    unfold refPath? at hrp
    rw [if_neg hv] at hrp
    exact absurd hrp (by simp)

/-- Whether an `Except` value is a success. -/
def exceptOk {ε α : Type} : Except ε α → Bool
  | Except.ok _ => true
  | Except.error _ => false

/-- On a cache consistent with the store, an unresolvable reference string
always makes `resolveString` fail (fail-fast at the first bad reference). -/
theorem resolveString_fails (store : VaultStore) (st : ResolveState) (value keyPath : String)
    (hc : CacheConsistent store st.cache) (hfail : refFails store value = true) :
    exceptOk (resolveString store st value keyPath).1 = false := by
  unfold refFails at hfail
  by_cases hv : hasVaultMark value
  · rw [if_pos hv] at hfail
    cases hp : parseVaultReference value with
    | error msg => simp [resolveString, hv, hp, exceptOk]
    | ok pk =>
      obtain ⟨path, key⟩ := pk
      rw [hp] at hfail
      simp only at hfail
      cases hcc : mapGet? st.cache path with
      | some data0 =>
        have hsp := hc _ _ hcc
        rw [hsp] at hfail
        simp only at hfail
        have hnone : mapGet? data0 key = none := by
          cases hmk : mapGet? data0 key with
          | none => rfl
          | some _ => rw [hmk] at hfail; simp at hfail
        simp [resolveString, hv, hp, getPathData, hcc, hnone, exceptOk]
      | none =>
        cases hs : store path with
        | apiFailure m => simp [resolveString, hv, hp, getPathData, hcc, hs, exceptOk]
        | dataNil => simp [resolveString, hv, hp, getPathData, hcc, hs, exceptOk]
        | badFormat => simp [resolveString, hv, hp, getPathData, hcc, hs, exceptOk]
        | ok data =>
          rw [hs] at hfail
          simp only at hfail
          have hnone : mapGet? data key = none := by
            cases hmk : mapGet? data key with
            | none => rfl
            | some _ => rw [hmk] at hfail; simp at hfail
          simp [resolveString, hv, hp, getPathData, hcc, hs, hnone, exceptOk]
  · rw [if_neg hv] at hfail
    simp at hfail

mutual

/-- Main run lemma for `resolveValue`: the fetch list never repeats a path,
and a successful run maintains the state invariant, only grows the cache,
and leaves every referenced path cached. -/
theorem resolveValue_run (store : VaultStore) (j : Json) :
    ∀ (st : ResolveState) (keyPath : String), StateInv store st →
      (resolveValue store st keyPath j).2.fetches.Nodup ∧
      (∀ v st', resolveValue store st keyPath j = (Except.ok v, st') →
        StateInv store st' ∧
        (∀ q, (mapGet? st.cache q).isSome → (mapGet? st'.cache q).isSome) ∧
        (∀ p, p ∈ jsonRefPaths j → (mapGet? st'.cache p).isSome)) := by
  intro st keyPath h
  cases j with
  | null =>
    refine ⟨h.2.1, ?_⟩
    intro v st' hpair
    injection hpair with h1 h2
    subst h2
    exact ⟨h, fun q hq => hq, by simp [jsonRefPaths]⟩
  | bool b =>
    refine ⟨h.2.1, ?_⟩
    intro v st' hpair
    injection hpair with h1 h2
    subst h2
    exact ⟨h, fun q hq => hq, by simp [jsonRefPaths]⟩
  | num n =>
    refine ⟨h.2.1, ?_⟩
    intro v st' hpair
    injection hpair with h1 h2
    subst h2
    exact ⟨h, fun q hq => hq, by simp [jsonRefPaths]⟩
  | str s =>
    have hi := resolveString_inv store st s keyPath h
    refine ⟨hi.1, ?_⟩
    intro v st' hpair
    have hspec := hi.2 v st' hpair
    refine ⟨hspec.1, hspec.2.1, ?_⟩
    intro p hp
    simp only [jsonRefPaths, Option.mem_toList] at hp
    exact hspec.2.2 p hp
  | obj fields =>
    have ih := resolveFields_run store fields st keyPath h
    rcases hres : resolveFields store st keyPath fields with ⟨r, st1⟩
    rw [hres] at ih
    cases r with
    | error e =>
      have heq : resolveValue store st keyPath (Json.obj fields) = (Except.error e, st1) := by
        simp [resolveValue, hres]
      rw [heq]
      exact ⟨ih.1, fun v st' hpair => by injection hpair with h1 _; exact absurd h1 (by simp)⟩
    | ok fs =>
      have hspec := ih.2 fs st1 rfl
      have heq : resolveValue store st keyPath (Json.obj fields) = (Except.ok (Json.obj fs), st1) := by
        simp [resolveValue, hres]
      rw [heq]
      refine ⟨ih.1, ?_⟩
      intro v st' hpair
      injection hpair with h1 h2
      subst h2
      exact ⟨hspec.1, hspec.2.1, by simpa [jsonRefPaths] using hspec.2.2⟩
  | arr items =>
    have ih := resolveItems_run store items st keyPath 0 h
    rcases hres : resolveItems store st keyPath 0 items with ⟨r, st1⟩
    rw [hres] at ih
    cases r with
    | error e =>
      have heq : resolveValue store st keyPath (Json.arr items) = (Except.error e, st1) := by
        simp [resolveValue, hres]
      rw [heq]
      exact ⟨ih.1, fun v st' hpair => by injection hpair with h1 _; exact absurd h1 (by simp)⟩
    | ok xs =>
      have hspec := ih.2 xs st1 rfl
      have heq : resolveValue store st keyPath (Json.arr items) = (Except.ok (Json.arr xs), st1) := by
        simp [resolveValue, hres]
      rw [heq]
      refine ⟨ih.1, ?_⟩
      intro v st' hpair
      injection hpair with h1 h2
      subst h2
      exact ⟨hspec.1, hspec.2.1, by simpa [jsonRefPaths] using hspec.2.2⟩

/-- Run lemma for `resolveFields` (object fields). -/
theorem resolveFields_run (store : VaultStore) (fields : JsonFields) :
    ∀ (st : ResolveState) (keyPath : String), StateInv store st →
      (resolveFields store st keyPath fields).2.fetches.Nodup ∧
      (∀ fs st', resolveFields store st keyPath fields = (Except.ok fs, st') →
        StateInv store st' ∧
        (∀ q, (mapGet? st.cache q).isSome → (mapGet? st'.cache q).isSome) ∧
        (∀ p, p ∈ fieldsRefPaths fields → (mapGet? st'.cache p).isSome)) := by
  intro st keyPath h
  cases fields with
  | nil =>
    refine ⟨h.2.1, ?_⟩
    intro fs st' hpair
    injection hpair with h1 h2
    subst h2
    exact ⟨h, fun q hq => hq, by simp [fieldsRefPaths]⟩
  | cons k v rest =>
    have ihv := resolveValue_run store v st (buildKeyPath keyPath k) h
    rcases hv1 : resolveValue store st (buildKeyPath keyPath k) v with ⟨rv, st1⟩
    rw [hv1] at ihv
    cases rv with
    | error e =>
      have heq : resolveFields store st keyPath (JsonFields.cons k v rest) = (Except.error e, st1) := by
        simp [resolveFields, hv1]
      rw [heq]
      exact ⟨ihv.1, fun fs st' hpair => by injection hpair with h1 _; exact absurd h1 (by simp)⟩
    | ok v' =>
      have hspecv := ihv.2 v' st1 rfl
      have ihr := resolveFields_run store rest st1 keyPath hspecv.1
      rcases hr1 : resolveFields store st1 keyPath rest with ⟨rr, st2⟩
      rw [hr1] at ihr
      cases rr with
      | error e =>
        have heq : resolveFields store st keyPath (JsonFields.cons k v rest) = (Except.error e, st2) := by
          simp [resolveFields, hv1, hr1]
        rw [heq]
        exact ⟨ihr.1, fun fs st' hpair => by injection hpair with h1 _; exact absurd h1 (by simp)⟩
      | ok rest' =>
        have hspecr := ihr.2 rest' st2 rfl
        have heq : resolveFields store st keyPath (JsonFields.cons k v rest) =
            (Except.ok (JsonFields.cons k v' rest'), st2) := by
          simp [resolveFields, hv1, hr1]
        rw [heq]
        refine ⟨ihr.1, ?_⟩
        intro fs st' hpair
        injection hpair with h1 h2
        subst h2
        refine ⟨hspecr.1, fun q hq => hspecr.2.1 q (hspecv.2.1 q hq), ?_⟩
        intro p hp
        simp only [fieldsRefPaths, List.mem_append] at hp
        rcases hp with hp | hp
        · exact hspecr.2.1 p (hspecv.2.2 p hp)
        · exact hspecr.2.2 p hp

/-- Run lemma for `resolveItems` (array elements). -/
theorem resolveItems_run (store : VaultStore) (items : JsonList) :
    ∀ (st : ResolveState) (keyPath : String) (i : Nat), StateInv store st →
      (resolveItems store st keyPath i items).2.fetches.Nodup ∧
      (∀ xs st', resolveItems store st keyPath i items = (Except.ok xs, st') →
        StateInv store st' ∧
        (∀ q, (mapGet? st.cache q).isSome → (mapGet? st'.cache q).isSome) ∧
        (∀ p, p ∈ itemsRefPaths items → (mapGet? st'.cache p).isSome)) := by
  intro st keyPath i h
  cases items with
  | nil =>
    refine ⟨h.2.1, ?_⟩
    intro xs st' hpair
    injection hpair with h1 h2
    subst h2
    exact ⟨h, fun q hq => hq, by simp [itemsRefPaths]⟩
  | cons v rest =>
    have ihv := resolveValue_run store v st (keyPath ++ "[" ++ toString i ++ "]") h
    rcases hv1 : resolveValue store st (keyPath ++ "[" ++ toString i ++ "]") v with ⟨rv, st1⟩
    rw [hv1] at ihv
    cases rv with
    | error e =>
      have heq : resolveItems store st keyPath i (JsonList.cons v rest) = (Except.error e, st1) := by
        simp [resolveItems, hv1]
      rw [heq]
      exact ⟨ihv.1, fun xs st' hpair => by injection hpair with h1 _; exact absurd h1 (by simp)⟩
    | ok v' =>
      have hspecv := ihv.2 v' st1 rfl
      have ihr := resolveItems_run store rest st1 keyPath (i + 1) hspecv.1
      rcases hr1 : resolveItems store st1 keyPath (i + 1) rest with ⟨rr, st2⟩
      rw [hr1] at ihr
      cases rr with
      | error e =>
        have heq : resolveItems store st keyPath i (JsonList.cons v rest) = (Except.error e, st2) := by
          simp [resolveItems, hv1, hr1]
        rw [heq]
        exact ⟨ihr.1, fun xs st' hpair => by injection hpair with h1 _; exact absurd h1 (by simp)⟩
      | ok rest' =>
        have hspecr := ihr.2 rest' st2 rfl
        have heq : resolveItems store st keyPath i (JsonList.cons v rest) =
            (Except.ok (JsonList.cons v' rest'), st2) := by
          simp [resolveItems, hv1, hr1]
        rw [heq]
        refine ⟨ihr.1, ?_⟩
        intro xs st' hpair
        injection hpair with h1 h2
        subst h2
        refine ⟨hspecr.1, fun q hq => hspecr.2.1 q (hspecv.2.1 q hq), ?_⟩
        intro p hp
        simp only [itemsRefPaths, List.mem_append] at hp
        rcases hp with hp | hp
        · exact hspecr.2.1 p (hspecv.2.2 p hp)
        · exact hspecr.2.2 p hp

end

mutual

/-- Fail-fast lemma for `resolveValue`: when the document contains any
unresolvable reference, resolution ends in an error. -/
theorem resolveValue_fails (store : VaultStore) (j : Json) :
    ∀ (st : ResolveState) (keyPath : String), StateInv store st →
      jsonHasFailingRef store j = true →
      exceptOk (resolveValue store st keyPath j).1 = false := by
  intro st keyPath h hfail
  cases j with
  | null => simp [jsonHasFailingRef] at hfail
  | bool b => simp [jsonHasFailingRef] at hfail
  | num n => simp [jsonHasFailingRef] at hfail
  | str s =>
    have := resolveString_fails store st s keyPath h.1 (by simpa [jsonHasFailingRef] using hfail)
    simpa [resolveValue] using this
  | obj fields =>
    have hff : fieldsHaveFailingRef store fields = true := by
      simpa [jsonHasFailingRef] using hfail
    have ih := resolveFields_fails store fields st keyPath h hff
    rcases hres : resolveFields store st keyPath fields with ⟨r, st1⟩
    rw [hres] at ih
    cases r with
    | error e => simp [resolveValue, hres, exceptOk]
    | ok fs => simp [exceptOk] at ih
  | arr items =>
    have hff : itemsHaveFailingRef store items = true := by
      simpa [jsonHasFailingRef] using hfail
    have ih := resolveItems_fails store items st keyPath 0 h hff
    rcases hres : resolveItems store st keyPath 0 items with ⟨r, st1⟩
    rw [hres] at ih
    cases r with
    | error e => simp [resolveValue, hres, exceptOk]
    | ok xs => simp [exceptOk] at ih

/-- Fail-fast lemma for object fields. -/
theorem resolveFields_fails (store : VaultStore) (fields : JsonFields) :
    ∀ (st : ResolveState) (keyPath : String), StateInv store st →
      fieldsHaveFailingRef store fields = true →
      exceptOk (resolveFields store st keyPath fields).1 = false := by
  intro st keyPath h hfail
  cases fields with
  | nil => simp [fieldsHaveFailingRef] at hfail
  | cons k v rest =>
    rcases hv1 : resolveValue store st (buildKeyPath keyPath k) v with ⟨rv, st1⟩
    cases rv with
    | error e => simp [resolveFields, hv1, exceptOk]
    | ok v' =>
      have hinv1 := ((resolveValue_run store v st (buildKeyPath keyPath k) h).2 v' st1 hv1).1
      have hvok : jsonHasFailingRef store v = false := by
        cases hjv : jsonHasFailingRef store v with
        | false => rfl
        | true =>
          have := resolveValue_fails store v st (buildKeyPath keyPath k) h hjv
          rw [hv1] at this
          simp [exceptOk] at this
      have hrestf : fieldsHaveFailingRef store rest = true := by
        rw [fieldsHaveFailingRef, hvok] at hfail
        simpa using hfail
      have ih := resolveFields_fails store rest st1 keyPath hinv1 hrestf
      rcases hr1 : resolveFields store st1 keyPath rest with ⟨rr, st2⟩
      rw [hr1] at ih
      cases rr with
      | error e => simp [resolveFields, hv1, hr1, exceptOk]
      | ok rest' => simp [exceptOk] at ih

/-- Fail-fast lemma for array items. -/
theorem resolveItems_fails (store : VaultStore) (items : JsonList) :
    ∀ (st : ResolveState) (keyPath : String) (i : Nat), StateInv store st →
      itemsHaveFailingRef store items = true →
      exceptOk (resolveItems store st keyPath i items).1 = false := by
  intro st keyPath i h hfail
  cases items with
  | nil => simp [itemsHaveFailingRef] at hfail
  | cons v rest =>
    rcases hv1 : resolveValue store st (keyPath ++ "[" ++ toString i ++ "]") v with ⟨rv, st1⟩
    cases rv with
    | error e => simp [resolveItems, hv1, exceptOk]
    | ok v' =>
      have hinv1 := ((resolveValue_run store v st (keyPath ++ "[" ++ toString i ++ "]") h).2 v' st1 hv1).1
      have hvok : jsonHasFailingRef store v = false := by
        cases hjv : jsonHasFailingRef store v with
        | false => rfl
        | true =>
          have := resolveValue_fails store v st (keyPath ++ "[" ++ toString i ++ "]") h hjv
          rw [hv1] at this
          simp [exceptOk] at this
      have hrestf : itemsHaveFailingRef store rest = true := by
        rw [itemsHaveFailingRef, hvok] at hfail
        simpa using hfail
      have ih := resolveItems_fails store rest st1 keyPath (i + 1) hinv1 hrestf
      rcases hr1 : resolveItems store st1 keyPath (i + 1) rest with ⟨rr, st2⟩
      rw [hr1] at ih
      cases rr with
      | error e => simp [resolveItems, hv1, hr1, exceptOk]
      | ok rest' => simp [exceptOk] at ih

end

/-! ## The fingerprint tracker (`calculateConnectorHash`): MD5 over the
     JSON serialization of `Spec.Connector` -/

/-- Left-rotation of a 32-bit word. -/
def rotl32 (x n : Nat) : Nat := ((x <<< n) % 4294967296) ||| (x >>> (32 - n))

/-- The 64 MD5 sine-derived constants (RFC 1321). -/
def md5K : List Nat :=
  [0xd76aa478, 0xe8c7b756, 0x242070db, 0xc1bdceee, 0xf57c0faf, 0x4787c62a, 0xa8304613, 0xfd469501,
   0x698098d8, 0x8b44f7af, 0xffff5bb1, 0x895cd7be, 0x6b901122, 0xfd987193, 0xa679438e, 0x49b40821,
   0xf61e2562, 0xc040b340, 0x265e5a51, 0xe9b6c7aa, 0xd62f105d, 0x02441453, 0xd8a1e681, 0xe7d3fbc8,
   0x21e1cde6, 0xc33707d6, 0xf4d50d87, 0x455a14ed, 0xa9e3e905, 0xfcefa3f8, 0x676f02d9, 0x8d2a4c8a,
   0xfffa3942, 0x8771f681, 0x6d9d6122, 0xfde5380c, 0xa4beea44, 0x4bdecfa9, 0xf6bb4b60, 0xbebfbc70,
   0x289b7ec6, 0xeaa127fa, 0xd4ef3085, 0x04881d05, 0xd9d4d039, 0xe6db99e5, 0x1fa27cf8, 0xc4ac5665,
   0xf4292244, 0x432aff97, 0xab9423a7, 0xfc93a039, 0x655b59c3, 0x8f0ccc92, 0xffeff47d, 0x85845dd1,
   0x6fa87e4f, 0xfe2ce6e0, 0xa3014314, 0x4e0811a1, 0xf7537e82, 0xbd3af235, 0x2ad7d2bb, 0xeb86d391]

/-- The 64 MD5 per-round shift amounts. -/
def md5S : List Nat :=
  [7, 12, 17, 22, 7, 12, 17, 22, 7, 12, 17, 22, 7, 12, 17, 22,
   5, 9, 14, 20, 5, 9, 14, 20, 5, 9, 14, 20, 5, 9, 14, 20,
   4, 11, 16, 23, 4, 11, 16, 23, 4, 11, 16, 23, 4, 11, 16, 23,
   6, 10, 15, 21, 6, 10, 15, 21, 6, 10, 15, 21, 6, 10, 15, 21]

/-- The g-th little-endian 32-bit word of a 64-byte block. -/
def md5word (block : List Nat) (g : Nat) : Nat :=
  block.getD (4 * g) 0 + 256 * block.getD (4 * g + 1) 0 +
    65536 * block.getD (4 * g + 2) 0 + 16777216 * block.getD (4 * g + 3) 0

/-- The MD5 round function and message index for round `i`. -/
def md5F (b c d i : Nat) : Nat × Nat :=
  if i < 16 then ((b &&& c) ||| ((b ^^^ 4294967295) &&& d), i)
  else if i < 32 then ((d &&& b) ||| ((d ^^^ 4294967295) &&& c), (5 * i + 1) % 16)
  else if i < 48 then (b ^^^ c ^^^ d, (3 * i + 5) % 16)
  else (c ^^^ (b ||| (d ^^^ 4294967295)), (7 * i) % 16)

/-- One MD5 round on the `(a, b, c, d)` state. -/
def md5Step (block : List Nat) (st : Nat × Nat × Nat × Nat) (i : Nat) : Nat × Nat × Nat × Nat :=
  let fg := md5F st.2.1 st.2.2.1 st.2.2.2 i
  let f := (fg.1 + st.1 + md5K.getD i 0 + md5word block fg.2) % 4294967296
  (st.2.2.2, (st.2.1 + rotl32 f (md5S.getD i 0)) % 4294967296, st.2.1, st.2.2.1)

/-- Processes one 64-byte block: 64 rounds, then the Davies–Meyer add. -/
def md5Block (st : Nat × Nat × Nat × Nat) (block : List Nat) : Nat × Nat × Nat × Nat :=
  let r := (List.range 64).foldl (md5Step block) st
  ((st.1 + r.1) % 4294967296, (st.2.1 + r.2.1) % 4294967296,
    (st.2.2.1 + r.2.2.1) % 4294967296, (st.2.2.2 + r.2.2.2) % 4294967296)

/-- MD5 padding: a 1-bit, zeros to 56 mod 64, and the 64-bit little-endian
bit length. -/
def md5Pad (msg : List Nat) : List Nat :=
  let len := msg.length
  msg ++ [128] ++ List.replicate ((119 - (len % 64)) % 64) 0 ++
    (List.range 8).map (fun i => ((len * 8) >>> (8 * i)) % 256)

/-- Splits a padded message into 64-byte blocks (structural recursion on a
fuel bound; any fuel at least the message length splits it fully, since the
padded length is a positive multiple of 64). -/
def md5Chunks : Nat → List Nat → List (List Nat)
  | 0, _ => []
  | _, [] => []
  | fuel + 1, l => l.take 64 :: md5Chunks fuel (l.drop 64)

/-- The 16 MD5 digest bytes of a byte sequence. -/
def md5Bytes (msg : List Nat) : List Nat :=
  let padded := md5Pad msg
  let st := (md5Chunks padded.length padded).foldl md5Block (0x67452301, 0xefcdab89, 0x98badcfe, 0x10325476)
  ((List.range 4).map fun i => (st.1 >>> (8 * i)) % 256) ++
    ((List.range 4).map fun i => (st.2.1 >>> (8 * i)) % 256) ++
    ((List.range 4).map fun i => (st.2.2.1 >>> (8 * i)) % 256) ++
    ((List.range 4).map fun i => (st.2.2.2 >>> (8 * i)) % 256)

/-- The lowercase hex digit for a value below 16. -/
def hexDigitChar (n : Nat) : Char :=
  if n < 10 then Char.ofNat (48 + n) else Char.ofNat (87 + n)

/-- Two lowercase hex characters of a byte (Go `fmt.Sprintf("%x", …)`). -/
def byteToHex (b : Nat) : List Char :=
  [hexDigitChar (b / 16), hexDigitChar (b % 16)]

/-- The lowercase-hex MD5 digest of a byte sequence, as printed by Go's
`fmt.Sprintf("%x", md5.Sum(bytes))`. -/
def md5Hex (msg : List Nat) : String :=
  String.mk ((md5Bytes msg).map byteToHex).flatten

/-- The bytes of an (ASCII) string, as Go sees `[]byte(s)`. -/
def strBytes (s : String) : List Nat := s.data.map Char.toNat

/-- Embeds the `Connector` struct of `api/v1alpha1` (the CR's declared
connector), whose `json.Marshal` image is what `calculateConnectorHash`
hashes.  The `config`/`auth` documents are `*runtime.RawExtension`s whose
raw bytes (`serializeJson` of the decoded tree) pass through `json.Marshal`
verbatim. -/
structure CRConnector where
  GroupID : String
  Service : String
  Auth : Option Json
  Config : Option Json
  DailySyncTime : String
  SyncFrequency : Int
  ScheduleType : String
  Paused : Option Bool
  RunSetupTests : Option Bool
  PauseAfterTrial : Option Bool
  TrustCertificates : Option Bool
  TrustFingerprints : Option Bool
  DataDelaySensitivity : String
  DataDelayThreshold : Int
  NetworkingMethod : String
  ProxyAgentID : String
  PrivateLinkID : String
  HybridDeploymentAgentID : String
deriving DecidableEq, Repr

/-- A JSON string literal (documents here need no escaping). -/
def goQuote (s : String) : String := "\"" ++ s ++ "\""

/-- A Go bool literal. -/
def goBoolLit (b : Bool) : String := if b then "true" else "false"

/-- Go's `json.Marshal` of the `Connector` struct: fields in declaration
order with their json tags; `omitempty` drops empty strings, zero ints and
nil pointers; `config` and `paused` have no `omitempty` and marshal nil as
`null`; `RawExtension` emits its raw bytes verbatim. -/
def marshalCRConnector (c : CRConnector) : String :=
  let fields : List (Option String) :=
    [some ("\"group_id\":" ++ goQuote c.GroupID),
     some ("\"service\":" ++ goQuote c.Service),
     c.Auth.map (fun j => "\"auth\":" ++ serializeJson j),
     some ("\"config\":" ++ (match c.Config with | some j => serializeJson j | none => "null")),
     (if c.DailySyncTime ≠ "" then some ("\"daily_sync_time\":" ++ goQuote c.DailySyncTime) else none),
     (if c.SyncFrequency ≠ 0 then some ("\"sync_frequency\":" ++ toString c.SyncFrequency) else none),
     (if c.ScheduleType ≠ "" then some ("\"schedule_type\":" ++ goQuote c.ScheduleType) else none),
     some ("\"paused\":" ++ (match c.Paused with | some b => goBoolLit b | none => "null")),
     c.RunSetupTests.map (fun b => "\"run_setup_tests\":" ++ goBoolLit b),
     c.PauseAfterTrial.map (fun b => "\"pause_after_trial\":" ++ goBoolLit b),
     c.TrustCertificates.map (fun b => "\"trust_certificates\":" ++ goBoolLit b),
     c.TrustFingerprints.map (fun b => "\"trust_fingerprints\":" ++ goBoolLit b),
     (if c.DataDelaySensitivity ≠ "" then some ("\"data_delay_sensitivity\":" ++ goQuote c.DataDelaySensitivity) else none),
     (if c.DataDelayThreshold ≠ 0 then some ("\"data_delay_threshold\":" ++ toString c.DataDelayThreshold) else none),
     (if c.NetworkingMethod ≠ "" then some ("\"networking_method\":" ++ goQuote c.NetworkingMethod) else none),
     (if c.ProxyAgentID ≠ "" then some ("\"proxy_agent_id\":" ++ goQuote c.ProxyAgentID) else none),
     (if c.PrivateLinkID ≠ "" then some ("\"private_link_id\":" ++ goQuote c.PrivateLinkID) else none),
     (if c.HybridDeploymentAgentID ≠ "" then some ("\"hybrid_deployment_agent_id\":" ++ goQuote c.HybridDeploymentAgentID) else none)]
  "\x7b" ++ String.intercalate "," (fields.filterMap id) ++ "\x7d"

/-- Embeds `calculateConnectorHash` from `utils.go`: the lowercase-hex MD5
digest of `json.Marshal(connector.Spec.Connector)`. -/
def calculateConnectorHash (c : CRConnector) : String :=
  md5Hex (strBytes (marshalCRConnector c))

/-! ## Theorems for claims C6, C10, C8 -/

/-- Claim C6: retryability of a provider API error is a function of the
HTTP-style status code alone — 429 and every 5xx status are retryable,
every other 4xx status is terminal, and any non-standard code outside the
normal ranges (below 200, or 600 and above, including 3xx redirects)
defaults to retryable. -/
theorem apiError_retryability (e : APIError) :
    ((e.StatusCode = 429 ∨ (500 ≤ e.StatusCode ∧ e.StatusCode < 600)) → e.IsRetryable = true) ∧
    ((400 ≤ e.StatusCode ∧ e.StatusCode < 500 ∧ e.StatusCode ≠ 429) → e.IsRetryable = false) ∧
    ((e.StatusCode < 400 ∨ 600 ≤ e.StatusCode) → e.IsRetryable = true) := by
  unfold APIError.IsRetryable
  refine ⟨?_, ?_, ?_⟩ <;> intro h <;> split_ifs with h1 h2 <;> simp_all <;> omega

/-- Witness for C6 at concrete status codes 429, 503, 404 and 999. -/
theorem apiError_retryability_witness :
    (apiErrorOfStatus 429).IsRetryable = true ∧
    (apiErrorOfStatus 503).IsRetryable = true ∧
    (apiErrorOfStatus 404).IsRetryable = false ∧
    (apiErrorOfStatus 999).IsRetryable = true :=
  ⟨(apiError_retryability _).1 (Or.inl (by decide)),
   (apiError_retryability _).1 (Or.inr (by decide)),
   (apiError_retryability _).2.1 (by refine ⟨by decide, by decide, by decide⟩),
   (apiError_retryability _).2.2 (Or.inr (by decide))⟩

/-- Claim C10: when `AddTable(schema, table, …)` is followed by
`AddColumn(schema, table, column, …)`, the `AddColumn` call installs a fresh
table configuration holding only the new column — the enabled flag and sync
mode set by `AddTable` are gone — and a second `AddColumn` for the same table
likewise wipes the first column, so `Build` returns a table configuration
containing only the most recent column. -/
theorem addColumn_installs_fresh_table_config
    (b : SchemaBuilder) (schema table c1 c2 : String)
    (tEnabled : Bool) (syncMode : String) (e1 h1 p1 e2 h2 p2 : Bool)
    (s : ConnectionSchemaConfigSchema)
    (hberr : b.err = none) (hs : mapGet? b.schemas schema = some s)
    (hschema : schema ≠ "") (htable : table ≠ "") (hc1 : c1 ≠ "") (hc2 : c2 ≠ "") :
    (∃ s1, mapGet? ((b.AddTable schema table tEnabled syncMode).AddColumn
          schema table c1 e1 h1 p1).schemas schema = some s1 ∧
        mapGet? s1.tables table =
          some ⟨none, none, [(c1, ⟨some e1, some h1, some p1⟩)]⟩) ∧
    (∃ out, (((b.AddTable schema table tEnabled syncMode).AddColumn
          schema table c1 e1 h1 p1).AddColumn schema table c2 e2 h2 p2).Build =
        Except.ok out ∧
      ∃ s2, mapGet? out.1 schema = some s2 ∧
        mapGet? s2.tables table =
          some ⟨none, none, [(c2, ⟨some e2, some h2, some p2⟩)]⟩) := by
  simp only [SchemaBuilder.AddTable, SchemaBuilder.AddColumn, SchemaBuilder.Build,
    ConnectionSchemaConfigTable.empty, hberr, hs, Option.isSome_none, Bool.false_eq_true,
    if_false]
  simp [hschema, htable, hc1, hc2, mapGet?_mapSet_self]

/-- Witness for C10: a concrete builder sequence `AddSchema "s" → AddTable
"s" "t" true "SOFT_DELETE" → AddColumn "s" "t" "c1" → AddColumn "s" "t" "c2"`
ends with the table holding only column `c2` and no enabled/sync-mode flags. -/
theorem addColumn_installs_fresh_table_config_witness :
    (∃ s1, mapGet? (((NewSchemaBuilder.AddSchema "s" true).AddTable "s" "t" true "SOFT_DELETE").AddColumn
          "s" "t" "c1" true false true).schemas "s" = some s1 ∧
        mapGet? s1.tables "t" =
          some ⟨none, none, [("c1", ⟨some true, some false, some true⟩)]⟩) ∧
    (∃ out, ((((NewSchemaBuilder.AddSchema "s" true).AddTable "s" "t" true "SOFT_DELETE").AddColumn
          "s" "t" "c1" true false true).AddColumn "s" "t" "c2" false true false).Build =
        Except.ok out ∧
      ∃ s2, mapGet? out.1 "s" = some s2 ∧
        mapGet? s2.tables "t" =
          some ⟨none, none, [("c2", ⟨some false, some true, some false⟩)]⟩) :=
  addColumn_installs_fresh_table_config
    (NewSchemaBuilder.AddSchema "s" true) "s" "t" "c1" "c2" true "SOFT_DELETE"
    true false true false true false ⟨some true, []⟩
    (by decide) (by decide) (by decide) (by decide) (by decide) (by decide)

/-- The live schema of the C8 scenario: `test_schema.test_table` enabled with
a nil sync mode, change handling `ALLOW_ALL`. -/
def liveSchemaC8 : ConnectionSchemaDetailsResponse :=
  ⟨"", ⟨"ALLOW_ALL", [("test_schema", ⟨some true, [("test_table", ⟨some true, none⟩)]⟩)]⟩⟩

/-- The declared CR schema of the C8 scenario: `test_schema.test_table`
enabled with declared sync mode `SOFT_DELETE`. -/
def crSchemaC8 : ConnectorSchemaConfig :=
  ⟨[("test_schema", ⟨true, some [("test_table", ⟨true, none, "SOFT_DELETE"⟩)]⟩)], "ALLOW_ALL"⟩

/-- Claim C8: for a declared table with non-empty sync mode, the comparator
records the `"expected <declared>, got nil"` message when the live sync mode
is absent, the `"expected <declared>, got <live>"` message when it is present
but different, and no sync-mode message at all when the declared sync mode is
empty; concretely, live `test_table.sync_mode=nil` against declared
`SOFT_DELETE` yields `matches=false` with a report containing
`"expected SOFT_DELETE, got nil"`. -/
theorem syncMode_mismatch_messages :
    (∀ (ft : ConnectionSchemaConfigTableResponse) (cr : TableObject),
      cr.SyncMode ≠ "" → ft.SyncMode = none →
      ("sync mode mismatch: expected " ++ cr.SyncMode ++ ", got nil") ∈ tableIssues ft cr) ∧
    (∀ (ft : ConnectionSchemaConfigTableResponse) (cr : TableObject) (fs : String),
      cr.SyncMode ≠ "" → ft.SyncMode = some fs → fs ≠ cr.SyncMode →
      ("sync mode mismatch: expected " ++ cr.SyncMode ++ ", got " ++ fs) ∈ tableIssues ft cr) ∧
    (∀ (ft : ConnectionSchemaConfigTableResponse) (cr : TableObject),
      cr.SyncMode = "" → ∀ m ∈ tableIssues ft cr, strContainsStr m "sync mode mismatch" = false) ∧
    (CompareSchemaWithCR liveSchemaC8 (some crSchemaC8)).1 = false ∧
    strContainsStr ((CompareSchemaWithCR liveSchemaC8 (some crSchemaC8)).2.render)
      "expected SOFT_DELETE, got nil" = true := by
  refine ⟨?_, ?_, ?_, by decide, by decide⟩
  · intro ft cr hsm hfs
    simp [tableIssues, hsm, hfs]
  · intro ft cr fs hsm hfs hne
    simp [tableIssues, hsm, hfs, hne]
  · intro ft cr hsm m hm
    simp only [tableIssues, hsm, ne_eq, not_true_eq_false, if_false, List.append_nil] at hm
    cases hfe : ft.Enabled with
    | none => rw [hfe] at hm; simp at hm
    | some fe =>
      rw [hfe] at hm
      by_cases heq : fe = cr.Enabled
      · simp [heq] at hm
      · simp [heq] at hm
        subst hm
        cases fe <;> cases hcr : cr.Enabled <;> simp_all [goBool] <;> decide

/-- Witness for C8: instantiating the general parts at the scenario's
concrete table configurations. -/
theorem syncMode_mismatch_messages_witness :
    ("sync mode mismatch: expected SOFT_DELETE, got nil") ∈
      tableIssues ⟨some true, none⟩ ⟨true, none, "SOFT_DELETE"⟩ ∧
    ("sync mode mismatch: expected SOFT_DELETE, got HISTORY") ∈
      tableIssues ⟨some true, some "HISTORY"⟩ ⟨true, none, "SOFT_DELETE"⟩ :=
  ⟨syncMode_mismatch_messages.1 ⟨some true, none⟩ ⟨true, none, "SOFT_DELETE"⟩
     (by decide) rfl,
   syncMode_mismatch_messages.2.1 ⟨some true, some "HISTORY"⟩ ⟨true, none, "SOFT_DELETE"⟩
     "HISTORY" (by decide) rfl (by decide)⟩

/-- `Option.getD` applied twice with the same option collapses. -/
theorem getD_getD {α : Type} (o : Option α) (x : α) : o.getD (o.getD x) = o.getD x := by
  cases o <;> rfl

/-- Claim C5: for a resolved spec populating every sendable field, the update
request sets every one of them (a full set-payload, built from the resolved
spec alone — `UpdateConnection` takes no remote state, so no remote diff is
possible), and applying the same request twice to any remote state equals
applying it once, making the update idempotent at the remote-state level. -/
theorem updateConnection_full_payload_idempotent (c : Connector) (s : RemoteConnectorState)
    (hsf : c.SyncFrequency ≠ 0) (hdst : c.DailySyncTime ≠ "") (hst : c.ScheduleType ≠ "")
    (hnm : c.NetworkingMethod ≠ "") (hpa : c.ProxyAgentID ≠ "") (hpl : c.PrivateLinkID ≠ "")
    (hhd : c.HybridDeploymentAgentID ≠ "") (hdds : c.DataDelaySensitivity ≠ "")
    (hddt : c.DataDelayThreshold ≠ 0) :
    UpdateConnection c =
      ⟨some false, c.Paused, some c.SyncFrequency, some c.DailySyncTime, some c.ScheduleType,
        c.PauseAfterTrial, c.Config, c.Auth, some c.NetworkingMethod, some c.ProxyAgentID,
        some c.PrivateLinkID, some c.HybridDeploymentAgentID, some c.DataDelaySensitivity,
        some c.DataDelayThreshold⟩ ∧
    applyUpdate (UpdateConnection c) (applyUpdate (UpdateConnection c) s) =
      applyUpdate (UpdateConnection c) s := by
  constructor
  · simp [UpdateConnection, hsf, hdst, hst, hnm, hpa, hpl, hhd, hdds, hddt]
  · simp [applyUpdate, getD_getD]

/-- A fully-populated example connector for the C5 witness. -/
def exampleConnector : Connector :=
  ⟨"postgres", some (JsonFields.cons "host" (Json.str "db") JsonFields.nil),
    some (JsonFields.cons "password" (Json.str "pw") JsonFields.nil),
    some false, "group1", 1440, "03:00", some true, "auto", some false, some true, some true,
    "NORMAL", 30, "Directly", "proxy1", "plink1", "hda1"⟩

/-- An example remote state for the C5 witness. -/
def exampleRemoteState : RemoteConnectorState :=
  ⟨true, true, 60, "01:00", "manual", true, JsonFields.nil, JsonFields.nil,
    "SshTunnel", "", "", "", "LOW", 0⟩

/-- Witness for C5 at the fully-populated example connector. -/
theorem updateConnection_full_payload_idempotent_witness :
    UpdateConnection exampleConnector =
      ⟨some false, some false, some 1440, some "03:00", some "auto", some false,
        some (JsonFields.cons "host" (Json.str "db") JsonFields.nil),
        some (JsonFields.cons "password" (Json.str "pw") JsonFields.nil),
        some "Directly", some "proxy1", some "plink1", some "hda1", some "NORMAL", some 30⟩ ∧
    applyUpdate (UpdateConnection exampleConnector)
        (applyUpdate (UpdateConnection exampleConnector) exampleRemoteState) =
      applyUpdate (UpdateConnection exampleConnector) exampleRemoteState :=
  updateConnection_full_payload_idempotent exampleConnector exampleRemoteState
    (by decide) (by decide) (by decide) (by decide) (by decide) (by decide)
    (by decide) (by decide) (by decide)

/-- Claim C9: after a successful create/update, a setup-test failure handled
by `handleError` forces the `ConnectorReady` condition to success while
failing only the `SetupTestReady` condition, without requeueing; and
setup-test warnings set `SetupTestReady` to success with the warnings
reason, leaving the `ConnectorReady` condition untouched. -/
theorem setupTest_failure_leaves_connector_ready
    (conds : List (String × Condition)) (reason detail : String)
    (warnings : List String) (runTests : Option Bool) :
    (mapGet? (handleError conds conditionTypeSetupTestReady reason
          (ReconcileError.setupTestsFailed detail)).conditions conditionTypeConnectorReady =
        some ⟨ConditionStatus.isTrue, ConnectorReasonSuccess, msgConnectorReady⟩ ∧
      mapGet? (handleError conds conditionTypeSetupTestReady reason
          (ReconcileError.setupTestsFailed detail)).conditions conditionTypeSetupTestReady =
        some ⟨ConditionStatus.isFalse, reason, (ReconcileError.setupTestsFailed detail).message⟩ ∧
      (handleError conds conditionTypeSetupTestReady reason
          (ReconcileError.setupTestsFailed detail)).requeueAfter = none ∧
      (handleError conds conditionTypeSetupTestReady reason
          (ReconcileError.setupTestsFailed detail)).returnsError = false) ∧
    (warnings ≠ [] → (runTests = none ∨ runTests = some true) →
      mapGet? (updateSetupTestsCondition conds runTests warnings) conditionTypeSetupTestReady =
        some ⟨ConditionStatus.isTrue, SetupTestsReasonReconciliationSuccessWithWarnings,
          "Setup tests completed with warnings: " ++ String.intercalate "; " warnings⟩ ∧
      mapGet? (updateSetupTestsCondition conds runTests warnings) conditionTypeConnectorReady =
        mapGet? conds conditionTypeConnectorReady) := by
  have hne : conditionTypeConnectorReady ≠ conditionTypeSetupTestReady := by decide
  refine ⟨⟨?_, ?_, rfl, rfl⟩, ?_⟩
  · show mapGet? (setCondition (setCondition conds conditionTypeConnectorReady
        ConditionStatus.isTrue ConnectorReasonSuccess msgConnectorReady)
        conditionTypeSetupTestReady ConditionStatus.isFalse reason _) conditionTypeConnectorReady = _
    rw [setCondition, setCondition, mapGet?_mapSet_ne _ _ (Ne.symm hne), mapGet?_mapSet_self]
  · show mapGet? (setCondition (setCondition conds conditionTypeConnectorReady
        ConditionStatus.isTrue ConnectorReasonSuccess msgConnectorReady)
        conditionTypeSetupTestReady ConditionStatus.isFalse reason _) conditionTypeSetupTestReady = _
    rw [setCondition, mapGet?_mapSet_self]
  · intro hw hrt
    have hlen : warnings.length > 0 := by
      cases warnings with
      | nil => exact absurd rfl hw
      | cons a l => simp
    have hrun : (runTests.isNone || runTests = some true) = true := by
      rcases hrt with h | h <;> simp [h]
    constructor
    · rw [updateSetupTestsCondition]
      simp only [hrun, Bool.not_true, if_false, hlen, if_pos, Bool.false_eq_true]
      rw [setCondition, mapGet?_mapSet_self]
    · rw [updateSetupTestsCondition]
      simp only [hrun, Bool.not_true, Bool.false_eq_true, if_false, hlen, if_pos]
      rw [setCondition, mapGet?_mapSet_ne _ _ (Ne.symm hne)]

/-- Claim C7: a remote `service` differing from the declared `service` makes
adoption fail regardless of every other field, and the connector identity is
written into primary status only when the service, group-ID and (when
inferable) schema-name validations have all passed. -/
theorem adoption_service_mismatch_terminal
    (spec : CRConnectorIdentity) (data : RemoteConnectorData) (adoptID : String)
    (remote : Except APIError RemoteConnectorData) :
    (spec.Service ≠ data.Service →
      handleExistingConnectorAdoption spec adoptID (Except.ok data) =
        AdoptOutcome.failed ("handleExistingConnectorAdoption: service mismatch: spec has '" ++
          spec.Service ++ "', existing connector has '" ++ data.Service ++ "'")) ∧
    (∀ id', adoptionStatusWrite (handleExistingConnectorAdoption spec adoptID remote) = some id' →
      id' = adoptID ∧ ∃ d, remote = Except.ok d ∧ spec.Service = d.Service ∧
        spec.GroupID = d.GroupID ∧
        (∀ fields expected, spec.Config = some (Json.obj fields) →
          expectedSchemaName fields = some expected →
          expected = "" ∨ expected = d.Schema)) := by
  constructor
  · intro h
    simp [handleExistingConnectorAdoption, h]
  · intro id' h
    cases remote with
    | error e => simp [handleExistingConnectorAdoption, adoptionStatusWrite] at h
    | ok d =>
      by_cases hsvc : spec.Service ≠ d.Service
      · simp [handleExistingConnectorAdoption, hsvc, adoptionStatusWrite] at h
      · push_neg at hsvc
        by_cases hgrp : spec.GroupID ≠ d.GroupID
        · simp [handleExistingConnectorAdoption, hsvc, hgrp, adoptionStatusWrite] at h
        · push_neg at hgrp
          cases hcfg : spec.Config with
          | none =>
            simp only [handleExistingConnectorAdoption, hsvc, hgrp, hcfg, ne_eq,
              not_true_eq_false, if_false, adoptionStatusWrite, Option.some.injEq] at h
            exact ⟨h.symm, d, rfl, hsvc, hgrp, fun fields expected hf _ => by
              exact absurd hf (by simp)⟩
          | some cfg =>
            cases cfg with
            | obj fields0 =>
              cases hexp : expectedSchemaName fields0 with
              | none =>
                simp [handleExistingConnectorAdoption, hsvc, hgrp, hcfg, hexp,
                  adoptionStatusWrite] at h
              | some expected0 =>
                by_cases hss : expected0 ≠ "" ∧ expected0 ≠ d.Schema
                · simp [handleExistingConnectorAdoption, hsvc, hgrp, hcfg, hexp, hss,
                    adoptionStatusWrite] at h
                · simp only [handleExistingConnectorAdoption, hsvc, hgrp, hcfg, hexp, hss, ne_eq,
                    not_true_eq_false, if_false, adoptionStatusWrite, Option.some.injEq] at h
                  refine ⟨h.symm, d, rfl, hsvc, hgrp, fun fields expected hf he => ?_⟩
                  have hf2 : fields0 = fields := by
                    injection hf with hf1
                    injection hf1
                  rw [← hf2] at he
                  rw [hexp] at he
                  injection he with he1
                  rw [← he1]
                  rcases not_and_or.mp hss with h1 | h1
                  · exact Or.inl (not_not.mp h1)
                  · exact Or.inr (not_not.mp h1)
            | null => simp [handleExistingConnectorAdoption, hsvc, hgrp, hcfg, adoptionStatusWrite] at h
            | bool b => simp [handleExistingConnectorAdoption, hsvc, hgrp, hcfg, adoptionStatusWrite] at h
            | num n => simp [handleExistingConnectorAdoption, hsvc, hgrp, hcfg, adoptionStatusWrite] at h
            | str s => simp [handleExistingConnectorAdoption, hsvc, hgrp, hcfg, adoptionStatusWrite] at h
            | arr xs => simp [handleExistingConnectorAdoption, hsvc, hgrp, hcfg, adoptionStatusWrite] at h

/-- Witness for C7: a declared `postgres` connector with a matching group
and schema but remote service `mysql` fails adoption with the service
mismatch error. -/
theorem adoption_service_mismatch_terminal_witness :
    handleExistingConnectorAdoption
        ⟨"postgres", "g1", some (Json.obj (JsonFields.cons "schema" (Json.str "analytics") JsonFields.nil))⟩
        "c1" (Except.ok ⟨"mysql", "g1", "analytics"⟩) =
      AdoptOutcome.failed ("handleExistingConnectorAdoption: service mismatch: spec has '" ++
        "postgres" ++ "', existing connector has '" ++ "mysql" ++ "'") :=
  (adoption_service_mismatch_terminal
    ⟨"postgres", "g1", some (Json.obj (JsonFields.cons "schema" (Json.str "analytics") JsonFields.nil))⟩
    ⟨"mysql", "g1", "analytics"⟩ "c1" (Except.ok ⟨"mysql", "g1", "analytics"⟩)).1 (by decide)

/-- Claim C2: the schema drift reconciler's trace is bounded — at most 2
comparisons, 2 applies, 3 fetches and 2 reloads per invocation, so a third
cycle is impossible; when the post-apply comparison mismatches (and the
provider calls themselves succeed) the trace is exactly one apply+verify
followed by one reload+re-apply+re-fetch+re-compare, a second mismatch
yields the distinguished mismatch-after-retry outcome carrying the mismatch
report, a matching re-compare yields success; and the orchestrator's
`handleError` never requeues the mismatch-after-retry error. -/
theorem schema_drift_single_retry :
    (∀ (env : SchemaEnv) (cr : ConnectorSchemaConfig),
      (reconcileSchema env cr).2.count SchemaOp.compare ≤ 2 ∧
      (reconcileSchema env cr).2.count SchemaOp.apply ≤ 2 ∧
      (reconcileSchema env cr).2.count SchemaOp.getDetails ≤ 3 ∧
      (reconcileSchema env cr).2.count SchemaOp.reload ≤ 2) ∧
    (∀ (env : SchemaEnv) (cr : ConnectorSchemaConfig),
      (env.getDetails 0).2 = none →
      env.applyResult 0 = none →
      (env.getDetails 1).2 = none →
      (CompareSchemaWithCR (env.getDetails 1).1 (some cr)).1 = false →
      env.reloadResult 0 (if cr.SchemaChangeHandling = "BLOCK_ALL" then "EXCLUDE" else "PRESERVE") = none →
      env.applyResult 1 = none →
      (env.getDetails 2).2 = none →
      (reconcileSchema env cr).2 =
        [SchemaOp.getDetails, SchemaOp.apply, SchemaOp.getDetails, SchemaOp.compare,
          SchemaOp.reload, SchemaOp.apply, SchemaOp.getDetails, SchemaOp.compare] ∧
      ((CompareSchemaWithCR (env.getDetails 2).1 (some cr)).1 = false →
        (reconcileSchema env cr).1 = SchemaOutcome.mismatchAfterRetry
          (CompareSchemaWithCR (env.getDetails 2).1 (some cr)).2.render) ∧
      ((CompareSchemaWithCR (env.getDetails 2).1 (some cr)).1 = true →
        (reconcileSchema env cr).1 = SchemaOutcome.success)) ∧
    (∀ (conds : List (String × Condition)) (conditionType reason report : String),
      (handleError conds conditionType reason
        (ReconcileError.schemaMismatchAfterRetry report)).requeueAfter = none ∧
      (handleError conds conditionType reason
        (ReconcileError.schemaMismatchAfterRetry report)).returnsError = false) := by
  refine ⟨?_, ?_, fun conds ty r rep => ⟨rfl, rfl⟩⟩
  · intro env cr
    unfold reconcileSchema reconcileSchemaAfterLoad
    repeat' split
    all_goals try decide
    all_goals simp_all
    all_goals repeat' split
    all_goals simp
  · intro env cr h0 ha0 h1 hm1 hr ha1 h2
    simp only [reconcileSchema, reconcileSchemaAfterLoad, h0, ha0, h1, hm1, hr, ha1, h2,
      Bool.false_eq_true, if_false, List.cons_append, List.nil_append]
    refine ⟨?_, ?_, ?_⟩
    · split <;> rfl
    · intro hm2
      rw [hm2]
      simp
    · intro hm2
      rw [hm2]
      simp

/-- The C2 witness environment: every provider call succeeds and the live
schema always comes back with a nil table sync mode, so both comparisons
against the declared `SOFT_DELETE` mismatch. -/
def schemaEnvW : SchemaEnv :=
  ⟨fun _ => (liveSchemaC8, none), fun _ _ => none, fun _ => none⟩

/-- Witness for C2: on the concrete environment the invocation performs
exactly one recovery cycle and ends in the mismatch-after-retry outcome
carrying the rendered report. -/
theorem schema_drift_single_retry_witness :
    (reconcileSchema schemaEnvW crSchemaC8).2 =
      [SchemaOp.getDetails, SchemaOp.apply, SchemaOp.getDetails, SchemaOp.compare,
        SchemaOp.reload, SchemaOp.apply, SchemaOp.getDetails, SchemaOp.compare] ∧
    (reconcileSchema schemaEnvW crSchemaC8).1 = SchemaOutcome.mismatchAfterRetry
      (CompareSchemaWithCR liveSchemaC8 (some crSchemaC8)).2.render :=
  have hb := schema_drift_single_retry.2.1 schemaEnvW crSchemaC8 rfl rfl rfl (by decide)
    rfl rfl rfl
  ⟨hb.1, hb.2.1 (by decide)⟩

/-- The config document with raw text `("a":"1","b":"2")`. -/
def cfgAB : Json :=
  Json.obj (JsonFields.cons "a" (Json.str "1") (JsonFields.cons "b" (Json.str "2") JsonFields.nil))

/-- The same mapping written with its keys in the other textual order. -/
def cfgBA : Json :=
  Json.obj (JsonFields.cons "b" (Json.str "2") (JsonFields.cons "a" (Json.str "1") JsonFields.nil))

/-- `cfgAB` with a single scalar leaf value changed. -/
def cfgABX : Json :=
  Json.obj (JsonFields.cons "a" (Json.str "1") (JsonFields.cons "b" (Json.str "X") JsonFields.nil))

/-- A declared connector whose config document is `cfg`, all other fields
held fixed. -/
def connWithConfig (cfg : Json) : CRConnector :=
  ⟨"g1", "postgres", none, some cfg, "", 0, "", some false, none, none, none, none,
    "", 0, "", "", "", ""⟩

set_option maxRecDepth 100000 in
/-- Counterexample to C1: two connector documents whose config subtrees are
structurally and value-equal ignoring key order — they differ only in the
textual order of the mapping keys in the raw config bytes — receive
different fingerprints, because `calculateConnectorHash` hashes
`json.Marshal` output in which the `RawExtension` config bytes pass through
verbatim, with no canonical key ordering. -/
theorem connectorHash_keyorder_counterexample :
    eqIgnoringKeyOrder cfgAB cfgBA = true ∧
    calculateConnectorHash (connWithConfig cfgAB) ≠ calculateConnectorHash (connWithConfig cfgBA) :=
  ⟨by decide, by decide⟩

set_option maxRecDepth 100000 in
/-- Claim C1 (amended): the fingerprint is a deterministic function of the
serialized connector bytes — byte-identical serializations always receive
equal digests — and it is sensitive to scalar leaf changes, witnessed at a
concrete pair differing in a single leaf value; it is NOT invariant under
reordering of mapping keys inside the raw config subtree (see the
counterexample). -/
theorem connectorHash_deterministic_and_leaf_sensitive :
    (∀ c1 c2 : CRConnector, marshalCRConnector c1 = marshalCRConnector c2 →
      calculateConnectorHash c1 = calculateConnectorHash c2) ∧
    calculateConnectorHash (connWithConfig cfgAB) ≠ calculateConnectorHash (connWithConfig cfgABX) := by
  constructor
  · intro c1 c2 h
    unfold calculateConnectorHash
    rw [h]
  · decide

/-- Witness for C1's determinism half at a concrete connector. -/
theorem connectorHash_deterministic_witness :
    calculateConnectorHash (connWithConfig cfgAB) = calculateConnectorHash (connWithConfig cfgAB) :=
  connectorHash_deterministic_and_leaf_sensitive.1 (connWithConfig cfgAB) (connWithConfig cfgAB) rfl

/-- The empty per-call state satisfies the run invariant. -/
theorem stateInv_empty (store : VaultStore) : StateInv store ⟨[], []⟩ :=
  ⟨fun p data hq => by simp [mapGet?] at hq, List.nodup_nil, fun p => by simp [mapGet?]⟩

/-- Claim C3: when any secret reference in a document is unresolvable (bad
grammar, store failure, missing path data, or missing key), `ResolveSecrets`
reports an error and hands back the original document unchanged — no
partially-resolved document is ever produced, even when other references in
the same document were resolvable. -/
theorem resolveSecrets_fail_fast (store : VaultStore) (doc : Json)
    (h : jsonHasFailingRef store doc = true) :
    (ResolveSecrets store (some doc)).1 = some doc ∧
    (ResolveSecrets store (some doc)).2.isSome = true := by
  have hfl := resolveValue_fails store doc ⟨[], []⟩ "" (stateInv_empty store) h
  cases hres : (ResolveSecretsRun store doc).1 with
  | ok v =>
    unfold ResolveSecretsRun at hres
    rw [hres] at hfl
    simp [exceptOk] at hfl
  | error e => simp [ResolveSecrets, hres]

/-- The C3 witness store: path `db` holds only the key `user`. -/
def witnessStore : VaultStore := fun path =>
  if path = "db" then VaultFetchResult.ok [("user", Json.str "svc-account")]
  else VaultFetchResult.apiFailure "connection refused"

/-- The C3 witness document: one resolvable reference and one reference to
a missing key in the same path. -/
def witnessDoc : Json :=
  Json.obj (JsonFields.cons "a" (Json.str "vault:db#user")
    (JsonFields.cons "b" (Json.str "vault:db#password") JsonFields.nil))

/-- Witness for C3: the mixed resolvable/unresolvable document yields an
error and the document is returned unchanged. -/
theorem resolveSecrets_fail_fast_witness :
    (ResolveSecrets witnessStore (some witnessDoc)).1 = some witnessDoc ∧
    (ResolveSecrets witnessStore (some witnessDoc)).2.isSome = true :=
  resolveSecrets_fail_fast witnessStore witnessDoc (by decide)

/-- Claim C4 (amended): within one `ResolveSecrets` call no path is ever
fetched twice from the store — every repeated reference is served from the
per-call cache — and when resolution completes successfully every path with
at least one reference in the document is fetched exactly once. -/
theorem secret_fetch_at_most_once (store : VaultStore) (doc : Json) (p : String) :
    (ResolveSecretsRun store doc).2.fetches.count p ≤ 1 ∧
    (∀ v, (ResolveSecretsRun store doc).1 = Except.ok v → p ∈ jsonRefPaths doc →
      (ResolveSecretsRun store doc).2.fetches.count p = 1) := by
  have hrun := resolveValue_run store doc ⟨[], []⟩ "" (stateInv_empty store)
  constructor
  · exact List.nodup_iff_count_le_one.mp hrun.1 p
  · intro v hok hp
    unfold ResolveSecretsRun at hok ⊢
    have hpair : resolveValue store ⟨[], []⟩ "" doc =
        (Except.ok v, (resolveValue store ⟨[], []⟩ "" doc).2) := Prod.ext hok rfl
    have hspec := hrun.2 v _ hpair
    have hcached := hspec.2.2 p hp
    have hmem := (hspec.1.2.2 p).mpr hcached
    have h1 := List.one_le_count_iff.mpr hmem
    have h2 := List.nodup_iff_count_le_one.mp hrun.1 p
    omega

/-- Witness for C4's success half: a document with two references into path
`db` triggers exactly one fetch of `db`. -/
theorem secret_fetch_at_most_once_witness :
    (ResolveSecretsRun witnessStore (Json.obj (JsonFields.cons "a" (Json.str "vault:db#user")
        (JsonFields.cons "b" (Json.str "vault:db#user") JsonFields.nil)))).2.fetches.count "db" = 1 :=
  (secret_fetch_at_most_once witnessStore _ "db").2
    (Json.obj (JsonFields.cons "a" (Json.str "svc-account")
      (JsonFields.cons "b" (Json.str "svc-account") JsonFields.nil)))
    rfl (by decide)

/-- The C4 counterexample document: an array whose first element is a
malformed reference and whose second references path `p` (once). -/
def cexDoc : Json :=
  Json.arr (JsonList.cons (Json.str "vault:badref")
    (JsonList.cons (Json.str "vault:p#k") JsonList.nil))

/-- The C4 counterexample store: path `p` resolves fine. -/
def cexStore : VaultStore := fun path =>
  if path = "p" then VaultFetchResult.ok [("k", Json.str "v")]
  else VaultFetchResult.apiFailure "unreachable"

/-- Counterexample to C4 as stated: `cexDoc` references path `p` exactly
once (N = 1), yet `ResolveSecrets` performs zero store fetches for `p`,
because the malformed reference earlier in the document aborts the pass
before `p` is ever fetched. -/
theorem secret_fetch_counterexample :
    (jsonRefPaths cexDoc).count "p" = 1 ∧
    (ResolveSecrets cexStore (some cexDoc)).2.isSome = true ∧
    (ResolveSecretsRun cexStore cexDoc).2.fetches.count "p" = 0 := by
  refine ⟨by decide, by decide, by decide⟩

/-- Witness for C9 on an empty prior condition list, a single warning, and
default (`nil`) `runSetupTests`. -/
theorem setupTest_failure_leaves_connector_ready_witness :
    mapGet? (handleError [] conditionTypeSetupTestReady "ReconciliationFailed"
        (ReconcileError.setupTestsFailed "connect failed")).conditions conditionTypeConnectorReady =
      some ⟨ConditionStatus.isTrue, ConnectorReasonSuccess, msgConnectorReady⟩ ∧
    mapGet? (updateSetupTestsCondition [] none ["t1: slow"]) conditionTypeSetupTestReady =
      some ⟨ConditionStatus.isTrue, SetupTestsReasonReconciliationSuccessWithWarnings,
        "Setup tests completed with warnings: " ++ String.intercalate "; " ["t1: slow"]⟩ :=
  ⟨(setupTest_failure_leaves_connector_ready [] "ReconciliationFailed" "connect failed"
      ["t1: slow"] none).1.1,
   ((setupTest_failure_leaves_connector_ready [] "ReconciliationFailed" "connect failed"
      ["t1: slow"] none).2 (by decide) (Or.inl rfl)).1⟩

end FivetranOperator
